import Mathlib

/-!
# Schnorr adaptor points: `src/adaptor.js` and `src/check.js`

A shallow embedding of the three public operations `createAdaptorPoint`,
`createAdaptorSecret`, `combineSecrets` and of the validation functions of
`check.js`.

* A JavaScript value reaching the public functions is a `JSValue`; an argument that the
  code treats as an array is the list of its indexed elements (the code only ever reads
  `.length` and `[i]`).
* A thrown `Error` is the `Except.error` of a structured value whose constructor records
  the message template and the strings / index inserted into it.
* `BigInteger` is `Int`; `Buffer` is a list of bytes.
* The curve library (`ecurve`), the hash and the helpers of `bip-schnorr` are outside of
  the repository.  The byte codec and the argument checks are written out; the curve
  group, `liftX` and the tagged hash are the fields of `CurveOps`.
-/

namespace AdaptorPoints

/-! ## Buffers and big integers -/

/-- One byte of a `Buffer`. -/
abbrev Byte := Fin 256

/-- A `Buffer`: its bytes in order. -/
abbrev Buffer := List Byte

/-- The unsigned big-endian value of the bytes, what `BigInteger.fromBuffer` of `bigi`
reads. -/
def bytesToNat (b : Buffer) : Nat := b.foldl (fun acc x => acc * 256 + x.val) 0

/-- The `BigInteger.fromBuffer` of `bigi`, as a big integer. -/
def fromBuffer (b : Buffer) : Int := Int.ofNat (bytesToNat b)

/-- The base-256 digits of `x`, most significant first, none for zero; the first argument
bounds the number of digits and `x` itself is always enough. -/
def toByteArrayUnsignedAux : Nat → Nat → Buffer
  | 0, _ => []
  | fuel + 1, x =>
    if x = 0 then [] else toByteArrayUnsignedAux fuel (x / 256) ++ [Fin.ofNat (x % 256)]

/-- The `toByteArrayUnsigned` of `bigi`: the minimal big-endian bytes of `|x|`. -/
def toByteArrayUnsigned (x : Int) : Buffer :=
  toByteArrayUnsignedAux x.natAbs x.natAbs

/-- The `toBuffer(size)` of `bigi`: `toByteArrayUnsigned` left-padded with zero bytes up to
`size` bytes (a longer byte array is kept as it is). -/
def toBuffer (x : Int) (size : Nat) : Buffer :=
  let byteArray := toByteArrayUnsigned x
  List.replicate (size - byteArray.length) (0 : Byte) ++ byteArray

/-- The `convert.intToBuffer` of `bip-schnorr`: `bigInteger.toBuffer(32)`. -/
def intToBuffer (x : Int) : Buffer := toBuffer x 32

/-! ## JavaScript values and errors -/

/-- The run-time values the checks tell apart. -/
inductive JSValue where
  | undefined
  | buffer (b : Buffer)
  | bigInteger (v : Int)
  | other
  deriving DecidableEq

/-- The thrown errors, one constructor per message template.
`idx` is `none` when the `idx` argument of the check is `undefined` (then `idxStr` is the
empty string), `some i` when the message contains `[i]`. -/
inductive Error where
  /-- `name + idxStr + ' must be a Buffer'` -/
  | mustBeBuffer (name : String) (idx : Option Nat)
  /-- `name + idxStr + ' must be ' + len + ' bytes long'` -/
  | mustBeBytesLong (name : String) (idx : Option Nat) (len : Nat)
  /-- `name + ' must be an array with one or more elements'` -/
  | mustBeArray (name : String)
  /-- `name + idxStr + ' must be a BigInteger'` -/
  | mustBeBigInteger (name : String) (idx : Option Nat)
  /-- `name + ' must be an integer in the range 1..n-1'` -/
  | mustBeInRange (name : String)
  /-- `'all parameters must be an array with the same length'` -/
  | sameLength
  /-- An exception raised inside a library call (a failed lift, the affine coordinate of
  the point at infinity, a method call on `null` or `undefined`). -/
  | library (what : String)
  deriving DecidableEq

deriving instance DecidableEq for Except

/-- The JavaScript `arr[i]`: `undefined` beyond the end. -/
def index (arr : List JSValue) (i : Nat) : JSValue := arr.getD i JSValue.undefined

/-- The loop `for (let i = start; i < start + count; i++) s = body(i, s)`, stopping at the
first exception. -/
def forLoop {σ : Type} (body : Nat → σ → Except Error σ) : Nat → Nat → σ → Except Error σ
  | 0, _, s => pure s
  | count + 1, i, s => body i s >>= forLoop body count (i + 1)

/-! ## `check.js` -/

/-- The `checkBuffer` of `check.js` (lines 13-21). -/
def checkBuffer (name : String) (buf : JSValue) (len : Nat) (idx : Option Nat) :
    Except Error Unit :=
  match buf with
  | JSValue.buffer b =>
    if b.length ≠ len then throw (Error.mustBeBytesLong name idx len) else pure ()
  | _ => throw (Error.mustBeBuffer name idx)

/-- The `check.checkArray` of `bip-schnorr`: throws when `!arr || !arr.length`. -/
def checkArray (name : String) (arr : List JSValue) : Except Error Unit :=
  if arr.length = 0 then throw (Error.mustBeArray name) else pure ()

/-- The `check.checkRange` of `bip-schnorr`: throws when `scalar < 1` or `scalar > n - 1`. -/
def checkRange (n : Int) (name : String) (scalar : Int) : Except Error Unit :=
  if scalar < 1 ∨ scalar > n - 1 then throw (Error.mustBeInRange name) else pure ()

/-- The `checkSecretArr` of `check.js` (lines 23-28). -/
def checkSecretArr (secrets : List JSValue) : Except Error Unit := do
  checkArray "secrets" secrets
  forLoop (fun i _ => checkBuffer "secrets" (index secrets i) 32 (some i)) secrets.length 0 ()

/-- The `checkMessageArr` of `check.js` (lines 30-35). -/
def checkMessageArr (messages : List JSValue) : Except Error Unit := do
  checkArray "messages" messages
  forLoop (fun i _ => checkBuffer "message" (index messages i) 32 (some i)) messages.length 0 ()

/-- The `checkPrivateKey` of `check.js` (lines 37-43). -/
def checkPrivateKey (n : Int) (privateKey : JSValue) (idx : Option Nat) : Except Error Unit :=
  match privateKey with
  | JSValue.bigInteger v => checkRange n "privateKey" v
  | _ => throw (Error.mustBeBigInteger "privateKey" idx)

/-- The `checkPrivateKeyArr` of `check.js` (lines 45-50); `checkPrivateKey` is called
without its `idx` argument. -/
def checkPrivateKeyArr (n : Int) (privateKeys : List JSValue) : Except Error Unit := do
  checkArray "privateKeys" privateKeys
  forLoop (fun i _ => checkPrivateKey n (index privateKeys i) none) privateKeys.length 0 ()

/-- The `checkKValue` of `check.js` (lines 67-73). -/
def checkKValue (n : Int) (privateKey : JSValue) (idx : Option Nat) : Except Error Unit :=
  match privateKey with
  | JSValue.bigInteger v => checkRange n "kValue" v
  | _ => throw (Error.mustBeBigInteger "kValue" idx)

/-- The `checkKValueArr` of `check.js` (lines 75-80); `checkKValue` is called without its
`idx` argument. -/
def checkKValueArr (n : Int) (kValues : List JSValue) : Except Error Unit := do
  checkArray "KValues" kValues
  forLoop (fun i _ => checkKValue n (index kValues i) none) kValues.length 0 ()

/-- The `check.checkPubKeyArr` of `bip-schnorr`. -/
def checkPubKeyArr (pubKeys : List JSValue) : Except Error Unit := do
  checkArray "pubKeys" pubKeys
  forLoop (fun i _ => checkBuffer "pubKey" (index pubKeys i) 32 (some i)) pubKeys.length 0 ()

/-- The `check.checkNonceArr` of `bip-schnorr`. -/
def checkNonceArr (nonces : List JSValue) : Except Error Unit := do
  checkArray "nonces" nonces
  forLoop (fun i _ => checkBuffer "nonce" (index nonces i) 32 (some i)) nonces.length 0 ()

/-- The `checkCreateAdaptorPointParams` of `check.js` (lines 82-90). -/
def checkCreateAdaptorPointParams (pubKeys messages rValues : List JSValue) :
    Except Error Unit := do
  checkPubKeyArr pubKeys
  checkMessageArr messages
  checkNonceArr rValues
  if pubKeys.length ≠ messages.length ∨ messages.length ≠ rValues.length then
    throw Error.sameLength
  else pure ()

/-- The `checkCreateAdaptorSecretParams` of `check.js` (lines 92-100). -/
def checkCreateAdaptorSecretParams (n : Int) (privKeys messages kValues : List JSValue) :
    Except Error Unit := do
  checkPrivateKeyArr n privKeys
  checkMessageArr messages
  checkKValueArr n kValues
  if privKeys.length ≠ messages.length ∨ messages.length ≠ kValues.length then
    throw Error.sameLength
  else pure ()

/-! ## `adaptor.js`: `combineSecrets` -/

/-- The `convert.bufferToInt` of `bip-schnorr` applied to a run-time value. -/
def bufferToInt (v : JSValue) : Except Error Int :=
  match v with
  | JSValue.buffer b => pure (fromBuffer b)
  | _ => throw (Error.library "TypeError")

/-- The order `n` of secp256k1, the `curve.n` of `ecurve.getCurveByName('secp256k1')`. -/
def secp256k1_n : Int :=
  0xFFFFFFFFFFFFFFFFFFFFFFFFFFFFFFFEBAAEDCE6AF48A03BBFD25E8CD0364141

/-- The body of the loop of `combineSecrets` (line 73):
`s = s.add(convert.bufferToInt(secrets[i])).mod(n)`. -/
def combineSecretsStep (n : Int) (secrets : List JSValue) (i : Nat) (s : Int) :
    Except Error Int := do
  let si ← bufferToInt (index secrets i)
  pure ((s + si) % n)

/-- The `combineSecrets` of `adaptor.js` (lines 68-76); `n` is the module constant. -/
def combineSecrets (n : Int) (secrets : List JSValue) : Except Error Buffer := do
  checkSecretArr secrets
  let s0 ← bufferToInt (index secrets 0)
  let s ← forLoop (combineSecretsStep n secrets) (secrets.length - 1) 1 s0
  pure (intToBuffer s)

/-! ## The curve library and the hash

`ecurve`, `bigi` and the `math` module of `bip-schnorr` are not part of the repository.
`CurveOps` collects what `adaptor.js` takes from them; `CurveLaws` states what the code
relies on. -/

/-- The curve `ecurve.getCurveByName('secp256k1')` and the tagged hash, as far as
`adaptor.js` uses them. -/
structure CurveOps where
  /-- The points of the curve, the point at infinity included. -/
  Point : Type
  /-- The group of points: `Point.add` is `+`, `curve.infinity` is `0`. -/
  group : AddCommGroup Point
  /-- The base point `curve.G`. -/
  G : Point
  /-- The group order `curve.n`. -/
  n : Int
  /-- The scalar multiplication `Point.multiply`. -/
  multiply : Point → Int → Point
  /-- The affine x-coordinate of a point, `none` for the point at infinity. -/
  x : Point → Option Int
  /-- The affine y-coordinate of a point, `none` for the point at infinity. -/
  y : Point → Option Int
  /-- The `math.liftX` of `bip-schnorr` on the bytes of an x-coordinate; it throws when no
  point has this x-coordinate. -/
  lift : Buffer → Except Error Point
  /-- The `math.taggedHash` of `bip-schnorr`. -/
  taggedHash : String → Buffer → Buffer

instance (C : CurveOps) : AddCommGroup C.Point := C.group

/-- What the code relies on from the curve library. -/
structure CurveLaws (C : CurveOps) : Prop where
  /-- The order is a positive 256-bit number. -/
  n_pos : 1 < C.n
  n_le : C.n ≤ 2 ^ 256
  /-- `multiply` by a non-negative scalar is the repeated sum. -/
  multiply_eq : ∀ (P : C.Point) (k : Int), 0 ≤ k → C.multiply P k = k.toNat • P
  /-- `G` has order `n`. -/
  order_smul : C.n.toNat • C.G = 0
  order_min : ∀ k : Nat, 0 < k → (k : Int) < C.n → k • C.G ≠ 0
  /-- Only the point at infinity has no affine coordinates. -/
  x_none : ∀ P : C.Point, C.x P = none ↔ P = 0
  y_none : ∀ P : C.Point, C.y P = none ↔ P = 0
  /-- An x-coordinate fits on 32 bytes. -/
  x_range : ∀ (P : C.Point) (v : Int), C.x P = some v → 0 ≤ v ∧ v < 2 ^ 256
  /-- A point and its opposite share the x-coordinate and differ in the parity of y. -/
  x_neg : ∀ P : C.Point, C.x (-P) = C.x P
  y_neg : ∀ (P : C.Point) (v w : Int), C.y P = some v → C.y (-P) = some w →
    (v % 2 = 0 ↔ ¬ w % 2 = 0)
  /-- `liftX` of the x-coordinate of a point is the one of the point and its opposite
  that has an even y. -/
  lift_x : ∀ (P : C.Point) (v w : Int), C.x P = some v → C.y P = some w →
    C.lift (intToBuffer v) = Except.ok (if w % 2 = 0 then P else -P)

/-- The getter `P.affineX`; it throws on the point at infinity. -/
def affineX (C : CurveOps) (P : C.Point) : Except Error Int :=
  match C.x P with
  | some v => pure v
  | none => throw (Error.library "affineX of infinity")

/-- The getter `P.affineY`; it throws on the point at infinity. -/
def affineY (C : CurveOps) (P : C.Point) : Except Error Int :=
  match C.y P with
  | some v => pure v
  | none => throw (Error.library "affineY of infinity")

/-- The `math.isEven` of `bip-schnorr`: `pubKey.affineY.mod(two).equals(zero)`. -/
def isEven (C : CurveOps) (pubKey : C.Point) : Except Error Bool := do
  let v ← affineY C pubKey
  pure (decide (v % 2 = 0))

/-- The `math.getEvenKey` of `bip-schnorr`:
`isEven(pubKey) ? privateKey : n.subtract(privateKey)`. -/
def getEvenKey (C : CurveOps) (pubKey : C.Point) (privateKey : Int) : Except Error Int := do
  if (← isEven C pubKey) then pure privateKey else pure (C.n - privateKey)

/-- The `math.getE` of `bip-schnorr`:
`bufferToInt(taggedHash('BIP0340/challenge', concat([Rx, Px, m]))).mod(n)`. -/
def getE (C : CurveOps) (Rx Px : Buffer) (m : JSValue) : Except Error Int :=
  match m with
  | JSValue.buffer mb =>
    pure (fromBuffer (C.taggedHash "BIP0340/challenge" (Rx ++ Px ++ mb)) % C.n)
  | _ => throw (Error.library "TypeError")

/-- The `math.liftX` of `bip-schnorr` applied to a run-time value. -/
def liftX (C : CurveOps) (v : JSValue) : Except Error C.Point :=
  match v with
  | JSValue.buffer b => C.lift b
  | _ => throw (Error.library "TypeError")

/-- A run-time value used as a `BigInteger`. -/
def asBigInteger (v : JSValue) : Except Error Int :=
  match v with
  | JSValue.bigInteger k => pure k
  | _ => throw (Error.library "TypeError")

/-- A method call on the accumulator, which is `null` before its first assignment. -/
def nonNull {α : Type} (v : Option α) : Except Error α :=
  match v with
  | some a => pure a
  | none => throw (Error.library "TypeError: null")

/-! ## `adaptor.js`: `createAdaptorPoint` and `createAdaptorSecret` -/

/-- The body of the loop of `createAdaptorPoint` (lines 21-32). -/
def createAdaptorPointStep (C : CurveOps) (pubKeys messages rValues : List JSValue) (i : Nat)
    (sG : Option C.Point) : Except Error (Option C.Point) := do
  let P ← liftX C (index pubKeys i)
  let Px := intToBuffer (← affineX C P)
  let r ← bufferToInt (index rValues i)
  let e ← getE C (intToBuffer r) Px (index messages i)
  let R ← liftX C (index rValues i)
  let sG ← if i = 0 then pure R else do
    let acc ← nonNull sG
    pure (acc + R)
  pure (some (sG + C.multiply P e))

/-- The `createAdaptorPoint` of `adaptor.js` (lines 14-36). -/
def createAdaptorPoint (C : CurveOps) (pubKeys messages rValues : List JSValue) :
    Except Error Buffer := do
  checkCreateAdaptorPointParams pubKeys messages rValues
  let sG ← forLoop (createAdaptorPointStep C pubKeys messages rValues) pubKeys.length 0 none
  let sG ← nonNull sG
  pure (intToBuffer (← affineX C sG))

/-- The body of the loop of `createAdaptorSecret` (lines 43-62). -/
def createAdaptorSecretStep (C : CurveOps) (privKeys messages kValues : List JSValue) (i : Nat)
    (s : Option Int) : Except Error (Option Int) := do
  let privateKey ← asBigInteger (index privKeys i)
  let P := C.multiply C.G privateKey
  let Px := intToBuffer (← affineX C P)
  let d ← getEvenKey C P privateKey
  let message := index messages i
  let kPrime ← asBigInteger (index kValues i)
  let R := C.multiply C.G kPrime
  let k ← getEvenKey C R kPrime
  let Rx := intToBuffer (← affineX C R)
  let e ← getE C Rx Px message
  let s := match s with
    | none => k
    | some acc => acc + k
  pure (some (s + e * d))

/-- The `createAdaptorSecret` of `adaptor.js` (lines 38-66). -/
def createAdaptorSecret (C : CurveOps) (privKeys messages kValues : List JSValue) :
    Except Error Buffer := do
  checkCreateAdaptorSecretParams C.n privKeys messages kValues
  let s ← forLoop (createAdaptorSecretStep C privKeys messages kValues) kValues.length 0 none
  let s ← nonNull s
  pure (intToBuffer (s % C.n))

/-! ## Typed participants and the signature scalar

The inputs the claims speak of, and the ordinary signature scalar in the words of the
specification. -/

/-- One participant of the secret side: private key, message, ephemeral scalar. -/
structure Signer where
  privKey : Int
  message : Buffer
  k : Int
  deriving DecidableEq

/-- A participant that passes the checks: both scalars in `[1, n-1]`, a 32-byte message. -/
def Signer.Valid (n : Int) (s : Signer) : Prop :=
  (1 ≤ s.privKey ∧ s.privKey ≤ n - 1) ∧ s.message.length = 32 ∧ (1 ≤ s.k ∧ s.k ≤ n - 1)

/-- The array `privKeys` of a list of participants. -/
def privKeysOf (ss : List Signer) : List JSValue := ss.map (fun s => JSValue.bigInteger s.privKey)

/-- The array `messages` of a list of participants. -/
def messagesOf (ss : List Signer) : List JSValue := ss.map (fun s => JSValue.buffer s.message)

/-- The array `kValues` of a list of participants. -/
def kValuesOf (ss : List Signer) : List JSValue := ss.map (fun s => JSValue.bigInteger s.k)

/-- The x-coordinate of `G * v` on 32 bytes (the zero bytes stand for the point at
infinity, which no scalar in `[1, n-1]` reaches). -/
def xOnly (C : CurveOps) (v : Int) : Buffer :=
  intToBuffer ((C.x (C.multiply C.G v)).getD 0)

/-- Whether `G * v` has an even y-coordinate. -/
def hasEvenY (C : CurveOps) (v : Int) : Bool :=
  match C.y (C.multiply C.G v) with
  | some w => decide (w % 2 = 0)
  | none => false

/-- The even-y-normalised scalar: `v` if `G * v` has even y and `n - v` otherwise. -/
def evenScalar (C : CurveOps) (v : Int) : Int :=
  if hasEvenY C v then v else C.n - v

/-- The challenge `e = challengeHash(Rx || Px || m) mod n`. -/
def challenge (C : CurveOps) (Rx Px m : Buffer) : Int :=
  fromBuffer (C.taggedHash "BIP0340/challenge" (Rx ++ Px ++ m)) % C.n

/-- The unreduced `k' + e * d` of a participant. -/
def signatureTerm (C : CurveOps) (s : Signer) : Int :=
  evenScalar C s.k
    + challenge C (xOnly C s.k) (xOnly C s.privKey) s.message * evenScalar C s.privKey

/-- The ordinary signature scalar `s = (k' + e * d) mod n` of a participant. -/
def signatureScalar (C : CurveOps) (s : Signer) : Int :=
  signatureTerm C s % C.n

/-- The array `pubKeys` matching a list of participants: the x-coordinates of
`G * privKey`. -/
def pubKeysOf (C : CurveOps) (ss : List Signer) : List JSValue :=
  ss.map (fun s => JSValue.buffer (xOnly C s.privKey))

/-- The array `rValues` matching a list of participants: the x-coordinates of `G * k`. -/
def rValuesOf (C : CurveOps) (ss : List Signer) : List JSValue :=
  ss.map (fun s => JSValue.buffer (xOnly C s.k))

/-- One participant of the point side: x-only public key, message, x-only nonce. -/
structure PointInput where
  pubKey : Buffer
  message : Buffer
  rValue : Buffer
  deriving DecidableEq

/-- A participant that passes the checks of the point side: three 32-byte buffers. -/
def PointInput.Valid (p : PointInput) : Prop :=
  p.pubKey.length = 32 ∧ p.message.length = 32 ∧ p.rValue.length = 32

/-- The array `pubKeys` of a list of point-side participants. -/
def pubKeysIn (ps : List PointInput) : List JSValue := ps.map (fun p => JSValue.buffer p.pubKey)

/-- The array `messages` of a list of point-side participants. -/
def messagesIn (ps : List PointInput) : List JSValue := ps.map (fun p => JSValue.buffer p.message)

/-- The array `rValues` of a list of point-side participants. -/
def rValuesIn (ps : List PointInput) : List JSValue := ps.map (fun p => JSValue.buffer p.rValue)

/-- The contribution `R + e * P` of one participant to the adaptor point, with
`P = liftX(pubKey)`, `R = liftX(rValue)` and `e` the challenge, failing where the loop body
of `createAdaptorPoint` fails. -/
def pointContribution (C : CurveOps) (p : PointInput) : Except Error C.Point := do
  let P ← C.lift p.pubKey
  let Px := intToBuffer (← affineX C P)
  let e := challenge C (intToBuffer (fromBuffer p.rValue)) Px p.message
  let R ← C.lift p.rValue
  pure (R + C.multiply P e)

/-- The contribution of one participant as a point, the point at infinity where it is not
defined. -/
def contribution (C : CurveOps) (p : PointInput) : C.Point :=
  match pointContribution C p with
  | Except.ok t => t
  | Except.error _ => 0

/-- The point-side participant matching a secret-side participant. -/
def matched (C : CurveOps) (s : Signer) : PointInput where
  pubKey := xOnly C s.privKey
  message := s.message
  rValue := xOnly C s.k

/-- The 32-byte encoding of the x-coordinate of a point, as the tests compute it:
`convert.intToBuffer(P.affineX)`. -/
def encodeX (C : CurveOps) (P : C.Point) : Except Error Buffer := do
  pure (intToBuffer (← affineX C P))

/-! ## Element checks, in the words of the claims -/

/-- A run-time value that is a `Buffer` of exactly 32 bytes. -/
def isBuffer32 (v : JSValue) : Bool :=
  match v with
  | JSValue.buffer b => decide (b.length = 32)
  | _ => false

/-- A run-time value that is a `BigInteger` in `[1, n-1]`. -/
def isScalar (n : Int) (v : JSValue) : Bool :=
  match v with
  | JSValue.bigInteger k => decide (1 ≤ k ∧ k ≤ n - 1)
  | _ => false

/-- The error of `checkBuffer(name, v, 32, i)` on a value that is not a 32-byte buffer. -/
def bufferError (name : String) (i : Nat) (v : JSValue) : Error :=
  match v with
  | JSValue.buffer _ => Error.mustBeBytesLong name (some i) 32
  | _ => Error.mustBeBuffer name (some i)

/-- The error of `checkPrivateKey(v)` and `checkKValue(v)`, called without an index, on a
value that is not a scalar in `[1, n-1]`. -/
def scalarError (name : String) (v : JSValue) : Error :=
  match v with
  | JSValue.bigInteger _ => Error.mustBeInRange name
  | _ => Error.mustBeBigInteger name none

/-- The index `i` is the smallest index of `arr` whose element is not `good`. -/
def FirstInvalid (good : JSValue → Bool) (arr : List JSValue) (i : Nat) : Prop :=
  i < arr.length ∧ good (index arr i) = false ∧ ∀ j, j < i → good (index arr j) = true

/-- The index that the message of an error shows, if any. -/
def Error.index : Error → Option Nat
  | Error.mustBeBuffer _ idx => idx
  | Error.mustBeBytesLong _ idx _ => idx
  | Error.mustBeBigInteger _ idx => idx
  | Error.mustBeArray _ => none
  | Error.mustBeInRange _ => none
  | Error.sameLength => none
  | Error.library _ => none

/-- The parameter name that the message of an error shows, if any. -/
def Error.param : Error → Option String
  | Error.mustBeBuffer name _ => some name
  | Error.mustBeBytesLong name _ _ => some name
  | Error.mustBeBigInteger name _ => some name
  | Error.mustBeArray name => some name
  | Error.mustBeInRange name => some name
  | Error.sameLength => none
  | Error.library _ => none

/-! ## The sums of the algorithms, in the words of the specification -/

/-- The point `liftX(b)`, the point at infinity where the lift fails. -/
def liftedPoint (C : CurveOps) (b : Buffer) : C.Point :=
  match C.lift b with
  | Except.ok P => P
  | Except.error _ => 0

/-- The term `R_i + e_i * P_i` of a participant, with `P_i = liftX(pubKey_i)`,
`R_i = liftX(rValue_i)` and `e_i = challengeHash(rValue_i || x(P_i) || message_i) mod n`;
`e_i * P_i` is the multiple in the group. -/
def groupTerm (C : CurveOps) (p : PointInput) : C.Point :=
  liftedPoint C p.rValue
    + challenge C p.rValue (intToBuffer ((C.x (liftedPoint C p.pubKey)).getD 0)) p.message
      • liftedPoint C p.pubKey

/-- The group sum of the terms of all participants, folded from the group identity. -/
def groupSum (C : CurveOps) (ps : List PointInput) : C.Point :=
  ps.foldl (fun acc p => acc + groupTerm C p) 0

/-- The accumulation of section 4.3 of the specification: start from zero and reduce
modulo `n` after every step. -/
def specAccumulate (C : CurveOps) (ss : List Signer) : Int :=
  ss.foldl (fun s t => (s + signatureTerm C t) % C.n) 0

/-- The participant with its private key replaced by `n - privKey`. -/
def negPrivKey (n : Int) (s : Signer) : Signer :=
  { s with privKey := n - s.privKey }

/-- The participant with its ephemeral scalar replaced by `n - k`. -/
def negK (n : Int) (s : Signer) : Signer :=
  { s with k := n - s.k }

/-! ## Array reads made explicit

The loops of `adaptor.js` once more, with every array read `arr[i]` going through a
function `read`, so that what a read outside of an array does can be varied.  With
`read arr i = pure (index arr i)` these are the definitions above. -/

/-- An array read that throws outside of the array, where `arr[i]` gives `undefined`. -/
def indexChecked (arr : List JSValue) (i : Nat) : Except Error JSValue :=
  if i < arr.length then pure (index arr i)
  else throw (Error.library "read outside of the array")

/-- The body of the loop of `createAdaptorPoint` (lines 21-32), reading `pubKeys[i]`,
`rValues[i]`, `messages[i]` and `rValues[i]` through `read`. -/
def createAdaptorPointStepWith (read : List JSValue → Nat → Except Error JSValue)
    (C : CurveOps) (pubKeys messages rValues : List JSValue) (i : Nat)
    (sG : Option C.Point) : Except Error (Option C.Point) := do
  let P ← liftX C (← read pubKeys i)
  let Px := intToBuffer (← affineX C P)
  let r ← bufferToInt (← read rValues i)
  let e ← getE C (intToBuffer r) Px (← read messages i)
  let R ← liftX C (← read rValues i)
  let sG ← if i = 0 then pure R else do
    let acc ← nonNull sG
    pure (acc + R)
  pure (some (sG + C.multiply P e))

/-- The `createAdaptorPoint` of `adaptor.js` (lines 14-36) with the array reads of its
loop through `read`. -/
def createAdaptorPointWith (read : List JSValue → Nat → Except Error JSValue)
    (C : CurveOps) (pubKeys messages rValues : List JSValue) : Except Error Buffer := do
  checkCreateAdaptorPointParams pubKeys messages rValues
  let sG ← forLoop (createAdaptorPointStepWith read C pubKeys messages rValues)
    pubKeys.length 0 none
  let sG ← nonNull sG
  pure (intToBuffer (← affineX C sG))

/-- The body of the loop of `createAdaptorSecret` (lines 43-62), reading `privKeys[i]`,
`messages[i]` and `kValues[i]` through `read`. -/
def createAdaptorSecretStepWith (read : List JSValue → Nat → Except Error JSValue)
    (C : CurveOps) (privKeys messages kValues : List JSValue) (i : Nat)
    (s : Option Int) : Except Error (Option Int) := do
  let privateKey ← asBigInteger (← read privKeys i)
  let P := C.multiply C.G privateKey
  let Px := intToBuffer (← affineX C P)
  let d ← getEvenKey C P privateKey
  let message ← read messages i
  let kPrime ← asBigInteger (← read kValues i)
  let R := C.multiply C.G kPrime
  let k ← getEvenKey C R kPrime
  let Rx := intToBuffer (← affineX C R)
  let e ← getE C Rx Px message
  let s := match s with
    | none => k
    | some acc => acc + k
  pure (some (s + e * d))

/-- The `createAdaptorSecret` of `adaptor.js` (lines 38-66) with the array reads of its
loop through `read`. -/
def createAdaptorSecretWith (read : List JSValue → Nat → Except Error JSValue)
    (C : CurveOps) (privKeys messages kValues : List JSValue) : Except Error Buffer := do
  checkCreateAdaptorSecretParams C.n privKeys messages kValues
  let s ← forLoop (createAdaptorSecretStepWith read C privKeys messages kValues)
    kValues.length 0 none
  let s ← nonNull s
  pure (intToBuffer (s % C.n))

/-- The body of the loop of `combineSecrets` (line 73), reading `secrets[i]` through
`read`. -/
def combineSecretsStepWith (read : List JSValue → Nat → Except Error JSValue) (n : Int)
    (secrets : List JSValue) (i : Nat) (s : Int) : Except Error Int := do
  let si ← bufferToInt (← read secrets i)
  pure ((s + si) % n)

/-- The `combineSecrets` of `adaptor.js` (lines 68-76), reading `secrets[0]` and the
`secrets[i]` of its loop through `read`. -/
def combineSecretsWith (read : List JSValue → Nat → Except Error JSValue) (n : Int)
    (secrets : List JSValue) : Except Error Buffer := do
  checkSecretArr secrets
  let s0 ← bufferToInt (← read secrets 0)
  let s ← forLoop (combineSecretsStepWith read n secrets) (secrets.length - 1) 1 s0
  pure (intToBuffer s)

/-! ## A small instance of the curve library

The curve `y^2 = x^3 + 7` over the field of 43 elements has 31 points, all multiples of
`G = (2, 12)`.  A point is stored as its multiple `k` of `G`, so that the group is the
additive group of the integers modulo 31. -/

/-- The affine coordinates of `k * G` on `y^2 = x^3 + 7` modulo 43, for `k = 1 .. 30`. -/
def toyTable : List (Int × Int) :=
  [(2, 12), (7, 7), (35, 21), (21, 18), (12, 12), (29, 31), (25, 18), (32, 40), (20, 40),
   (42, 7), (40, 25), (37, 36), (13, 21), (34, 40), (38, 21), (38, 22), (34, 3), (13, 22),
   (37, 7), (40, 18), (42, 36), (20, 3), (32, 3), (25, 25), (29, 12), (12, 31), (21, 25),
   (35, 22), (7, 36), (2, 31)]

/-- The coordinates of the point `k * G`, none for `k = 0`. -/
def toyCoords (k : ZMod 31) : Option (Int × Int) :=
  if k.val = 0 then none else toyTable.get? (k.val - 1)

/-- The lift on the small curve: the point with the given x-coordinate and an even y. -/
def toyLift (b : Buffer) : Except Error (ZMod 31) :=
  match (List.range 31).find? (fun k =>
      match toyCoords (k : ZMod 31) with
      | some (x, y) => decide (x = fromBuffer b ∧ y % 2 = 0)
      | none => false) with
  | some k => pure (k : ZMod 31)
  | none => throw (Error.library "c is not equal to y^2")

/-- A stand-in for the tagged hash on the small curve. -/
def toyHash (tag : String) (data : Buffer) : Buffer :=
  intToBuffer (Int.ofNat (data.foldl (fun acc b => (acc * 31 + b.val + 7) % 65521) tag.length))

/-- The small curve with its 31 points. -/
def toyCurve : CurveOps where
  Point := ZMod 31
  group := inferInstance
  G := 1
  n := 31
  multiply := fun P k => k.toNat • P
  x := fun P => (toyCoords P).map Prod.fst
  y := fun P => (toyCoords P).map Prod.snd
  lift := toyLift
  taggedHash := toyHash

/-! ## The byte codec -/

theorem fromBuffer_eq (b : Buffer) : fromBuffer b = (bytesToNat b : Int) := rfl

theorem bytesToNat_nil : bytesToNat [] = 0 := rfl

theorem bytesToNat_concat (b : Buffer) (c : Byte) :
    bytesToNat (b ++ [c]) = bytesToNat b * 256 + c.val := by
  simp [bytesToNat, List.foldl_append]

theorem bytesToNat_zeros_append (k : Nat) (b : Buffer) :
    bytesToNat (List.replicate k (0 : Byte) ++ b) = bytesToNat b := by
  induction k with
  | zero => simp
  | succ k ih =>
    have h : bytesToNat ((0 : Byte) :: (List.replicate k (0 : Byte) ++ b))
        = bytesToNat (List.replicate k (0 : Byte) ++ b) := by
      simp [bytesToNat]
    simpa [List.replicate_succ, ih] using h

theorem bytesToNat_lt (b : Buffer) : bytesToNat b < 256 ^ b.length := by
  induction b using List.reverseRecOn with
  | nil => simp [bytesToNat_nil]
  | append_singleton b c ih =>
    rw [bytesToNat_concat, List.length_append, List.length_singleton, pow_succ]
    have := c.isLt
    omega

theorem aux_fuel (f : Nat) : ∀ (g x : Nat), x ≤ f → x ≤ g →
    toByteArrayUnsignedAux f x = toByteArrayUnsignedAux g x := by
  induction f with
  | zero =>
    intro g x hf _
    have hx : x = 0 := by omega
    subst hx
    cases g <;> simp [toByteArrayUnsignedAux]
  | succ f ih =>
    intro g x hf hg
    cases g with
    | zero =>
      have hx : x = 0 := by omega
      subst hx
      simp [toByteArrayUnsignedAux]
    | succ g =>
      by_cases hx : x = 0
      · simp [toByteArrayUnsignedAux, hx]
      · have h1 : x / 256 ≤ f := by omega
        have h2 : x / 256 ≤ g := by omega
        simp only [toByteArrayUnsignedAux, hx, if_false]
        rw [ih g (x / 256) h1 h2]

theorem aux_zero : toByteArrayUnsignedAux 0 0 = [] := rfl

theorem aux_pos (x : Nat) (hx : 0 < x) :
    toByteArrayUnsignedAux x x
      = toByteArrayUnsignedAux (x / 256) (x / 256) ++ [Fin.ofNat (x % 256)] := by
  obtain ⟨f, rfl⟩ : ∃ f, x = f + 1 := ⟨x - 1, by omega⟩
  have hne : f + 1 ≠ 0 := by omega
  simp only [toByteArrayUnsignedAux, hne, if_false]
  rw [aux_fuel f ((f + 1) / 256) ((f + 1) / 256) (by omega) (le_refl _)]

theorem byte_ofNat_val (x : Nat) : ((Fin.ofNat (x % 256) : Byte)).val = x % 256 := by
  simp [Fin.ofNat]

theorem bytesToNat_aux (x : Nat) : bytesToNat (toByteArrayUnsignedAux x x) = x := by
  induction x using Nat.strong_induction_on with
  | _ x ih =>
    by_cases hx : x = 0
    · subst hx; simp [aux_zero, bytesToNat_nil]
    · rw [aux_pos x (by omega), bytesToNat_concat, ih (x / 256) (by omega), byte_ofNat_val]
      omega

theorem length_aux_le (w : Nat) : ∀ x : Nat, x < 256 ^ w →
    (toByteArrayUnsignedAux x x).length ≤ w := by
  induction w with
  | zero =>
    intro x hx
    have : x = 0 := by simpa using hx
    subst this; simp [aux_zero]
  | succ w ih =>
    intro x hx
    by_cases h0 : x = 0
    · subst h0; simp [aux_zero]
    · rw [aux_pos x (by omega), List.length_append, List.length_singleton]
      have : x / 256 < 256 ^ w := by
        rw [pow_succ] at hx
        exact Nat.div_lt_of_lt_mul (by omega)
      have := ih _ this
      omega

/-- Decoding what `toBuffer` wrote gives back the absolute value. -/
theorem fromBuffer_toBuffer (x : Int) (size : Nat) :
    fromBuffer (toBuffer x size) = (x.natAbs : Int) := by
  rw [fromBuffer_eq]
  simp only [toBuffer, toByteArrayUnsigned]
  rw [bytesToNat_zeros_append, bytesToNat_aux]

theorem fromBuffer_intToBuffer (x : Int) (hx : 0 ≤ x) : fromBuffer (intToBuffer x) = x := by
  rw [intToBuffer, fromBuffer_toBuffer]
  omega

/-- A value below `256 ^ size` is written on exactly `size` bytes. -/
theorem length_toBuffer (x : Int) (size : Nat) (hx : x.natAbs < 256 ^ size) :
    (toBuffer x size).length = size := by
  have := length_aux_le size x.natAbs hx
  simp only [toBuffer, toByteArrayUnsigned, List.length_append, List.length_replicate]
  omega

theorem length_intToBuffer (x : Int) (h0 : 0 ≤ x) (hx : x < 2 ^ 256) :
    (intToBuffer x).length = 32 := by
  apply length_toBuffer
  have : (x.natAbs : Int) < 2 ^ 256 := by omega
  have h2 : (x.natAbs : Int) < ((256 ^ 32 : Nat) : Int) := by
    norm_num at this ⊢
    exact this
  exact_mod_cast h2

/-- Writing the value of a buffer on as many bytes as the buffer has gives the buffer. -/
theorem toBuffer_bytesToNat (b : Buffer) : toBuffer (bytesToNat b : Int) b.length = b := by
  induction b using List.reverseRecOn with
  | nil => simp [toBuffer, toByteArrayUnsigned, bytesToNat_nil, aux_zero]
  | append_singleton b c ih =>
    simp only [toBuffer, toByteArrayUnsigned, Int.natAbs_ofNat] at ih ⊢
    by_cases hv : bytesToNat (b ++ [c]) = 0
    · have hb : bytesToNat b = 0 := by rw [bytesToNat_concat] at hv; omega
      have hc : c = 0 := by
        rw [bytesToNat_concat] at hv
        apply Fin.ext
        simp only [Fin.val_zero]
        omega
      rw [hb] at ih
      rw [hv]
      simp only [aux_zero, List.length_nil, Nat.sub_zero, List.append_nil] at ih ⊢
      rw [List.length_append, List.length_singleton, List.replicate_succ', ih, hc]
    · have hdiv : bytesToNat (b ++ [c]) / 256 = bytesToNat b := by
        rw [bytesToNat_concat]; have := c.isLt; omega
      have hmod : bytesToNat (b ++ [c]) % 256 = c.val := by
        rw [bytesToNat_concat]; have := c.isLt; omega
      rw [aux_pos _ (by omega), hdiv, hmod]
      have hcc : (Fin.ofNat c.val : Byte) = c := by
        apply Fin.ext; simp [Fin.ofNat, Nat.mod_eq_of_lt c.isLt]
      rw [hcc, List.length_append, List.length_append, List.length_singleton,
        ← List.append_assoc]
      have : b.length + 1 - ((toByteArrayUnsignedAux (bytesToNat b) (bytesToNat b)).length + 1)
          = b.length - (toByteArrayUnsignedAux (bytesToNat b) (bytesToNat b)).length := by
        omega
      rw [this, ih]

theorem intToBuffer_fromBuffer (b : Buffer) (hb : b.length = 32) :
    intToBuffer (fromBuffer b) = b := by
  rw [intToBuffer, fromBuffer_eq, ← hb]
  exact toBuffer_bytesToNat b

theorem fromBuffer_nonneg (b : Buffer) : 0 ≤ fromBuffer b := by
  rw [fromBuffer_eq]; omega

theorem fromBuffer_lt (b : Buffer) (hb : b.length = 32) : fromBuffer b < 2 ^ 256 := by
  rw [fromBuffer_eq]
  have h := bytesToNat_lt b
  rw [hb] at h
  have : ((bytesToNat b : Nat) : Int) < ((256 ^ 32 : Nat) : Int) := by exact_mod_cast h
  norm_num at this ⊢
  exact this

/-! ## Loops and array checks -/

theorem index_map (f : Buffer → JSValue) (bs : List Buffer) (i : Nat) (hi : i < bs.length) :
    index (bs.map f) i = f (bs.get ⟨i, hi⟩) := by
  simp [index, List.getD_eq_getElem?_getD, List.getElem?_map, List.getElem?_eq_getElem hi]

theorem index_of_lt (arr : List JSValue) (i : Nat) (hi : i < arr.length) :
    index arr i = arr.get ⟨i, hi⟩ := by
  simp [index, List.getD_eq_getElem?_getD, List.getElem?_eq_getElem hi]

/-- A checking loop succeeds exactly when every iteration does. -/
theorem forLoop_unit_iff (body : Nat → Unit → Except Error Unit) (count : Nat) :
    ∀ start : Nat, forLoop body count start () = Except.ok () ↔
      ∀ i, start ≤ i → i < start + count → body i () = Except.ok () := by
  induction count with
  | zero =>
    intro start
    constructor
    · intro _ i h1 h2; omega
    · intro _; rfl
  | succ count ih =>
    intro start
    simp only [forLoop]
    constructor
    · intro h i h1 h2
      cases hb : body start () with
      | error e => rw [hb] at h; cases h
      | ok u =>
        rw [hb] at h
        by_cases hi : i = start
        · subst hi; exact hb
        · exact (ih (start + 1)).1 h i (by omega) (by omega)
    · intro h
      rw [h start (le_refl _) (by omega)]
      exact (ih (start + 1)).2 (fun i h1 h2 => h i (by omega) (by omega))

/-- The first failing iteration of a checking loop decides its error. -/
theorem forLoop_unit_error (body : Nat → Unit → Except Error Unit) (count : Nat) :
    ∀ (start : Nat) (e : Error), forLoop body count start () = Except.error e →
      ∃ i, start ≤ i ∧ i < start + count ∧ body i () = Except.error e := by
  induction count with
  | zero => intro start e h; cases h
  | succ count ih =>
    intro start e h
    simp only [forLoop] at h
    cases hb : body start () with
    | error e2 =>
      rw [hb] at h
      cases h
      exact ⟨start, le_refl _, by omega, hb⟩
    | ok u =>
      rw [hb] at h
      obtain ⟨i, h1, h2, h3⟩ := ih (start + 1) e h
      exact ⟨i, by omega, by omega, h3⟩

theorem checkArray_ok_iff (name : String) (arr : List JSValue) :
    checkArray name arr = Except.ok () ↔ arr ≠ [] := by
  unfold checkArray
  cases arr with
  | nil => simp [throw, throwThe, MonadExceptOf.throw]
  | cons a l => simp [pure, Except.pure]

theorem checkBuffer_ok_iff (name : String) (v : JSValue) (len : Nat) (idx : Option Nat) :
    checkBuffer name v len idx = Except.ok () ↔ ∃ b, v = JSValue.buffer b ∧ b.length = len := by
  unfold checkBuffer
  cases v with
  | buffer b =>
    by_cases h : b.length = len
    · simp [h, pure, Except.pure]
    · simp [h, throw, throwThe, MonadExceptOf.throw]
  | undefined => simp [throw, throwThe, MonadExceptOf.throw]
  | bigInteger v => simp [throw, throwThe, MonadExceptOf.throw]
  | other => simp [throw, throwThe, MonadExceptOf.throw]

/-- An array passes a loop of element checks when it is non-empty and every element
passes. -/
theorem checkedArray_ok_iff (name : String) (arr : List JSValue)
    (chk : Nat → JSValue → Except Error Unit) (good : JSValue → Prop)
    (hchk : ∀ i v, chk i v = Except.ok () ↔ good v) :
    (checkArray name arr >>= fun _ => forLoop (fun i _ => chk i (index arr i)) arr.length 0 ())
        = Except.ok () ↔ arr ≠ [] ∧ ∀ v ∈ arr, good v := by
  constructor
  · intro h
    cases hc : checkArray name arr with
    | error e => rw [hc] at h; cases h
    | ok u =>
      rw [hc] at h
      refine ⟨(checkArray_ok_iff name arr).1 hc, ?_⟩
      intro v hv
      obtain ⟨i, hi, rfl⟩ := List.getElem_of_mem hv
      have := (forLoop_unit_iff _ _ 0).1 h i (Nat.zero_le _) (by omega)
      rw [index_of_lt arr i hi] at this
      exact (hchk i _).1 this
  · rintro ⟨hne, hall⟩
    rw [(checkArray_ok_iff name arr).2 hne]
    refine (forLoop_unit_iff _ _ 0).2 ?_
    intro i _ hi
    have hi2 : i < arr.length := by omega
    rw [index_of_lt arr i hi2]
    exact (hchk i _).2 (hall _ (List.get_mem arr i hi2))

theorem checkSecretArr_ok_iff (secrets : List JSValue) :
    checkSecretArr secrets = Except.ok () ↔
      secrets ≠ [] ∧ ∀ v ∈ secrets, ∃ b, v = JSValue.buffer b ∧ b.length = 32 :=
  checkedArray_ok_iff "secrets" secrets (fun i v => checkBuffer "secrets" v 32 (some i)) _
    (fun i v => checkBuffer_ok_iff "secrets" v 32 (some i))

theorem checkMessageArr_ok_iff (messages : List JSValue) :
    checkMessageArr messages = Except.ok () ↔
      messages ≠ [] ∧ ∀ v ∈ messages, ∃ b, v = JSValue.buffer b ∧ b.length = 32 :=
  checkedArray_ok_iff "messages" messages (fun i v => checkBuffer "message" v 32 (some i)) _
    (fun i v => checkBuffer_ok_iff "message" v 32 (some i))

theorem checkPubKeyArr_ok_iff (pubKeys : List JSValue) :
    checkPubKeyArr pubKeys = Except.ok () ↔
      pubKeys ≠ [] ∧ ∀ v ∈ pubKeys, ∃ b, v = JSValue.buffer b ∧ b.length = 32 :=
  checkedArray_ok_iff "pubKeys" pubKeys (fun i v => checkBuffer "pubKey" v 32 (some i)) _
    (fun i v => checkBuffer_ok_iff "pubKey" v 32 (some i))

theorem checkNonceArr_ok_iff (nonces : List JSValue) :
    checkNonceArr nonces = Except.ok () ↔
      nonces ≠ [] ∧ ∀ v ∈ nonces, ∃ b, v = JSValue.buffer b ∧ b.length = 32 :=
  checkedArray_ok_iff "nonces" nonces (fun i v => checkBuffer "nonce" v 32 (some i)) _
    (fun i v => checkBuffer_ok_iff "nonce" v 32 (some i))

/-! ## `combineSecrets` -/

/-- One step of the accumulation of `combineSecrets`: `s.add(x).mod(n)`. -/
theorem foldl_addMod (n : Int) (vs : List Int) (hvs : vs ≠ []) :
    ∀ s : Int, vs.foldl (fun s v => (s + v) % n) s = (s + vs.sum) % n := by
  induction vs with
  | nil => exact absurd rfl hvs
  | cons v rest ih =>
    intro s
    cases rest with
    | nil => simp
    | cons w rest2 =>
      rw [List.foldl_cons, ih (by simp), Int.emod_add_emod, List.sum_cons (a := v), add_assoc]

theorem bind_ok {α β : Type} (a : α) (f : α → Except Error β) :
    (Except.ok a >>= f) = f a := rfl

theorem bind_error {α β : Type} (e : Error) (f : α → Except Error β) :
    ((Except.error e : Except Error α) >>= f) = Except.error e := rfl

theorem pure_eq_ok {α : Type} (a : α) : (pure a : Except Error α) = Except.ok a := rfl

theorem bufferToInt_buffer (b : Buffer) :
    bufferToInt (JSValue.buffer b) = Except.ok (fromBuffer b) := rfl

theorem combineLoop_eq (n : Int) (bs : List Buffer) (count : Nat) :
    ∀ (start : Nat) (s : Int), start + count = bs.length →
      forLoop (combineSecretsStep n (bs.map JSValue.buffer)) count start s
        = Except.ok (((bs.drop start).map fromBuffer).foldl (fun s v => (s + v) % n) s) := by
  induction count with
  | zero =>
    intro start s h
    have : bs.drop start = [] := List.drop_eq_nil_of_le (by omega)
    simp [forLoop, this, pure, Except.pure]
  | succ count ih =>
    intro start s h
    have hlt : start < bs.length := by omega
    simp only [forLoop, combineSecretsStep]
    rw [index_map JSValue.buffer bs start hlt, bufferToInt_buffer, bind_ok, pure_eq_ok, bind_ok,
      ih (start + 1) _ (by omega), List.drop_eq_getElem_cons hlt]
    simp only [List.map_cons, List.foldl_cons]
    rfl

theorem checkSecretArr_buffers (bs : List Buffer) (hne : bs ≠ [])
    (hlen : ∀ b ∈ bs, b.length = 32) :
    checkSecretArr (bs.map JSValue.buffer) = Except.ok () := by
  rw [checkSecretArr_ok_iff]
  refine ⟨by simpa using hne, ?_⟩
  intro v hv
  obtain ⟨b, hb, rfl⟩ := List.mem_map.1 hv
  exact ⟨b, rfl, hlen b hb⟩

/-- What `combineSecrets` returns on a non-empty array of 32-byte buffers: the first
value as it is when it is alone, the sum of all values reduced modulo `n` otherwise. -/
theorem combineSecrets_buffers (n : Int) (a : Buffer) (rest : List Buffer)
    (hlen : ∀ b ∈ a :: rest, b.length = 32) :
    combineSecrets n ((a :: rest).map JSValue.buffer)
      = Except.ok (intToBuffer (if rest = [] then fromBuffer a
          else (((a :: rest).map fromBuffer).sum) % n)) := by
  have hchk := checkSecretArr_buffers (a :: rest) (by simp) hlen
  have hloop := combineLoop_eq n (a :: rest) rest.length 1 (fromBuffer a) (by simp; omega)
  have hidx : index (List.map JSValue.buffer (a :: rest)) 0 = JSValue.buffer a := rfl
  have hl : (List.map JSValue.buffer (a :: rest)).length - 1 = rest.length := by simp
  unfold combineSecrets
  rw [hchk, bind_ok, hidx, bufferToInt_buffer, bind_ok, hl, hloop, bind_ok, pure_eq_ok]
  by_cases hr : rest = []
  · subst hr; simp
  · simp only [hr, if_false, List.drop_one, List.tail_cons]
    rw [foldl_addMod n _ (by simpa using hr)]
    simp

/-! ## The validation gate of `createAdaptorSecret` -/

theorem checkRange_ok_iff (n : Int) (name : String) (v : Int) :
    checkRange n name v = Except.ok () ↔ 1 ≤ v ∧ v ≤ n - 1 := by
  unfold checkRange
  by_cases h : v < 1 ∨ v > n - 1
  · simp only [h, if_true, throw, throwThe, MonadExceptOf.throw, reduceCtorEq, false_iff]
    omega
  · simp only [h, if_false, pure, Except.pure, true_iff]
    omega

theorem checkPrivateKey_ok_iff (n : Int) (v : JSValue) (idx : Option Nat) :
    checkPrivateKey n v idx = Except.ok () ↔ ∃ k, v = JSValue.bigInteger k ∧ 1 ≤ k ∧ k ≤ n - 1 := by
  unfold checkPrivateKey
  cases v with
  | bigInteger k => simp [checkRange_ok_iff]
  | undefined => simp [throw, throwThe, MonadExceptOf.throw]
  | buffer b => simp [throw, throwThe, MonadExceptOf.throw]
  | other => simp [throw, throwThe, MonadExceptOf.throw]

theorem checkKValue_ok_iff (n : Int) (v : JSValue) (idx : Option Nat) :
    checkKValue n v idx = Except.ok () ↔ ∃ k, v = JSValue.bigInteger k ∧ 1 ≤ k ∧ k ≤ n - 1 := by
  unfold checkKValue
  cases v with
  | bigInteger k => simp [checkRange_ok_iff]
  | undefined => simp [throw, throwThe, MonadExceptOf.throw]
  | buffer b => simp [throw, throwThe, MonadExceptOf.throw]
  | other => simp [throw, throwThe, MonadExceptOf.throw]

theorem checkPrivateKeyArr_ok_iff (n : Int) (privateKeys : List JSValue) :
    checkPrivateKeyArr n privateKeys = Except.ok () ↔
      privateKeys ≠ [] ∧
        ∀ v ∈ privateKeys, ∃ k, v = JSValue.bigInteger k ∧ 1 ≤ k ∧ k ≤ n - 1 :=
  checkedArray_ok_iff "privateKeys" privateKeys (fun _ v => checkPrivateKey n v none) _
    (fun _ v => checkPrivateKey_ok_iff n v none)

theorem checkKValueArr_ok_iff (n : Int) (kValues : List JSValue) :
    checkKValueArr n kValues = Except.ok () ↔
      kValues ≠ [] ∧ ∀ v ∈ kValues, ∃ k, v = JSValue.bigInteger k ∧ 1 ≤ k ∧ k ≤ n - 1 :=
  checkedArray_ok_iff "KValues" kValues (fun _ v => checkKValue n v none) _
    (fun _ v => checkKValue_ok_iff n v none)

/-- Two checks in sequence pass exactly when both pass. -/
theorem seq_ok_iff (a b : Except Error Unit) :
    (a >>= fun _ => b) = Except.ok () ↔ a = Except.ok () ∧ b = Except.ok () := by
  cases a with
  | error e => simp [bind_error]
  | ok u => simp [bind_ok]

theorem sameLength_ok_iff (a b c : Nat) :
    (if a ≠ b ∨ b ≠ c then (throw Error.sameLength : Except Error Unit) else pure ())
      = Except.ok () ↔ a = b ∧ b = c := by
  by_cases h : a ≠ b ∨ b ≠ c
  · simp only [h, if_true, throw, throwThe, MonadExceptOf.throw, reduceCtorEq, false_iff]
    omega
  · simp only [h, if_false, pure, Except.pure, true_iff]
    omega

theorem checkCreateAdaptorSecretParams_iff (n : Int) (privKeys messages kValues : List JSValue) :
    checkCreateAdaptorSecretParams n privKeys messages kValues = Except.ok () ↔
      privKeys ≠ [] ∧ messages ≠ [] ∧ kValues ≠ [] ∧
      (∀ v ∈ privKeys, ∃ k, v = JSValue.bigInteger k ∧ 1 ≤ k ∧ k ≤ n - 1) ∧
      (∀ v ∈ messages, ∃ b, v = JSValue.buffer b ∧ b.length = 32) ∧
      (∀ v ∈ kValues, ∃ k, v = JSValue.bigInteger k ∧ 1 ≤ k ∧ k ≤ n - 1) ∧
      privKeys.length = messages.length ∧ messages.length = kValues.length := by
  unfold checkCreateAdaptorSecretParams
  rw [seq_ok_iff, seq_ok_iff, seq_ok_iff, checkPrivateKeyArr_ok_iff, checkMessageArr_ok_iff,
    checkKValueArr_ok_iff, sameLength_ok_iff]
  tauto

theorem checkCreateAdaptorPointParams_iff (pubKeys messages rValues : List JSValue) :
    checkCreateAdaptorPointParams pubKeys messages rValues = Except.ok () ↔
      pubKeys ≠ [] ∧ messages ≠ [] ∧ rValues ≠ [] ∧
      (∀ v ∈ pubKeys, ∃ b, v = JSValue.buffer b ∧ b.length = 32) ∧
      (∀ v ∈ messages, ∃ b, v = JSValue.buffer b ∧ b.length = 32) ∧
      (∀ v ∈ rValues, ∃ b, v = JSValue.buffer b ∧ b.length = 32) ∧
      pubKeys.length = messages.length ∧ messages.length = rValues.length := by
  unfold checkCreateAdaptorPointParams
  rw [seq_ok_iff, seq_ok_iff, seq_ok_iff, checkPubKeyArr_ok_iff, checkMessageArr_ok_iff,
    checkNonceArr_ok_iff, sameLength_ok_iff]
  tauto

theorem createAdaptorSecret_of_check_error (C : CurveOps) (privKeys messages kValues : List JSValue)
    (e : Error) (h : checkCreateAdaptorSecretParams C.n privKeys messages kValues = Except.error e) :
    createAdaptorSecret C privKeys messages kValues = Except.error e := by
  unfold createAdaptorSecret
  rw [h, bind_error]

/-! ## The order of the checks and their errors -/

theorem seq_error_left (a : Except Error Unit) (b : Unit → Except Error Unit) (e : Error)
    (h : a = Except.error e) : (a >>= b) = Except.error e := by
  rw [h, bind_error]

theorem seq_ok_left (a : Except Error Unit) (b : Unit → Except Error Unit)
    (h : a = Except.ok ()) : (a >>= b) = b () := by
  rw [h, bind_ok]

/-- The error of a checking loop is the error of its first failing iteration. -/
theorem forLoop_unit_first (body : Nat → Unit → Except Error Unit) (count : Nat) :
    ∀ (start i : Nat) (e : Error), start ≤ i → i < start + count →
      body i () = Except.error e → (∀ j, start ≤ j → j < i → body j () = Except.ok ()) →
      forLoop body count start () = Except.error e := by
  induction count with
  | zero => intro start i e h1 h2; omega
  | succ count ih =>
    intro start i e h1 h2 hb hprev
    simp only [forLoop]
    by_cases hi : i = start
    · subst hi
      rw [hb, bind_error]
    · rw [hprev start (le_refl _) (by omega), bind_ok]
      exact ih (start + 1) i e (by omega) (by omega) hb
        (fun j hj1 hj2 => hprev j (by omega) hj2)

/-- An array whose first invalid element is at index `i` fails with the error of the
element check at `i`. -/
theorem checkedArray_first (name : String) (arr : List JSValue)
    (chk : Nat → JSValue → Except Error Unit) (i : Nat) (e : Error) (hi : i < arr.length)
    (he : chk i (index arr i) = Except.error e)
    (hprev : ∀ j, j < i → chk j (index arr j) = Except.ok ()) :
    (checkArray name arr >>= fun _ => forLoop (fun i _ => chk i (index arr i)) arr.length 0 ())
      = Except.error e := by
  have hne : arr ≠ [] := by
    intro h; subst h; simp at hi
  rw [(checkArray_ok_iff name arr).2 hne, bind_ok]
  exact forLoop_unit_first _ _ 0 i e (Nat.zero_le _) (by omega) he (fun j _ hj => hprev j hj)

/-- An array check that fails, fails with `mustBeArray` or with the error of an element
check. -/
theorem checkedArray_error (name : String) (arr : List JSValue)
    (chk : Nat → JSValue → Except Error Unit) (e : Error)
    (h : (checkArray name arr >>= fun _ =>
      forLoop (fun i _ => chk i (index arr i)) arr.length 0 ()) = Except.error e) :
    e = Error.mustBeArray name ∨ ∃ i, i < arr.length ∧ chk i (index arr i) = Except.error e := by
  cases hc : checkArray name arr with
  | error e2 =>
    rw [hc, bind_error] at h
    cases h
    left
    unfold checkArray at hc
    split at hc
    · cases hc; rfl
    · cases hc
  | ok u =>
    rw [hc, bind_ok] at h
    obtain ⟨i, _, hi, hb⟩ := forLoop_unit_error _ _ 0 e h
    exact Or.inr ⟨i, by omega, hb⟩

theorem checkBuffer_error (name : String) (v : JSValue) (i : Nat)
    (h : isBuffer32 v = false) :
    checkBuffer name v 32 (some i) = Except.error (bufferError name i v) := by
  unfold checkBuffer
  cases v with
  | buffer b =>
    have hb : b.length ≠ 32 := by simpa [isBuffer32] using h
    simp [hb, bufferError, throw, throwThe, MonadExceptOf.throw]
  | undefined => rfl
  | bigInteger k => rfl
  | other => rfl

theorem checkBuffer_ok (name : String) (v : JSValue) (i : Nat) (h : isBuffer32 v = true) :
    checkBuffer name v 32 (some i) = Except.ok () := by
  rw [checkBuffer_ok_iff]
  cases v with
  | buffer b => exact ⟨b, rfl, by simpa [isBuffer32] using h⟩
  | undefined => simp [isBuffer32] at h
  | bigInteger k => simp [isBuffer32] at h
  | other => simp [isBuffer32] at h

theorem checkBuffer_error_ne (name : String) (v : JSValue) (len : Nat) (idx : Option Nat)
    (e : Error) (h : checkBuffer name v len idx = Except.error e) : e ≠ Error.sameLength := by
  unfold checkBuffer at h
  split at h
  · split at h
    · cases h; simp
    · cases h
  · cases h; simp

theorem checkRange_error (n : Int) (name : String) (k : Int) (e : Error)
    (h : checkRange n name k = Except.error e) : e = Error.mustBeInRange name := by
  unfold checkRange at h
  split at h
  · cases h; rfl
  · cases h

theorem checkPrivateKey_error (n : Int) (v : JSValue) (h : isScalar n v = false) :
    checkPrivateKey n v none = Except.error (scalarError "privateKey" v) := by
  unfold checkPrivateKey
  cases v with
  | bigInteger k =>
    have hk : k < 1 ∨ k > n - 1 := by
      have : ¬ (1 ≤ k ∧ k ≤ n - 1) := by simpa [isScalar] using h
      omega
    simp [checkRange, hk, scalarError, throw, throwThe, MonadExceptOf.throw]
  | undefined => rfl
  | buffer b => rfl
  | other => rfl

theorem checkPrivateKey_ok (n : Int) (v : JSValue) (idx : Option Nat)
    (h : isScalar n v = true) : checkPrivateKey n v idx = Except.ok () := by
  rw [checkPrivateKey_ok_iff]
  cases v with
  | bigInteger k => exact ⟨k, rfl, by simpa [isScalar] using h⟩
  | undefined => simp [isScalar] at h
  | buffer b => simp [isScalar] at h
  | other => simp [isScalar] at h

theorem checkKValue_error (n : Int) (v : JSValue) (h : isScalar n v = false) :
    checkKValue n v none = Except.error (scalarError "kValue" v) := by
  unfold checkKValue
  cases v with
  | bigInteger k =>
    have hk : k < 1 ∨ k > n - 1 := by
      have : ¬ (1 ≤ k ∧ k ≤ n - 1) := by simpa [isScalar] using h
      omega
    simp [checkRange, hk, scalarError, throw, throwThe, MonadExceptOf.throw]
  | undefined => rfl
  | buffer b => rfl
  | other => rfl

theorem checkKValue_ok (n : Int) (v : JSValue) (idx : Option Nat)
    (h : isScalar n v = true) : checkKValue n v idx = Except.ok () := by
  rw [checkKValue_ok_iff]
  cases v with
  | bigInteger k => exact ⟨k, rfl, by simpa [isScalar] using h⟩
  | undefined => simp [isScalar] at h
  | buffer b => simp [isScalar] at h
  | other => simp [isScalar] at h

theorem checkPrivateKey_error_ne (n : Int) (v : JSValue) (idx : Option Nat) (e : Error)
    (h : checkPrivateKey n v idx = Except.error e) : e ≠ Error.sameLength := by
  unfold checkPrivateKey at h
  split at h
  · rw [checkRange_error n _ _ e h]; simp
  · cases h; simp

theorem checkKValue_error_ne (n : Int) (v : JSValue) (idx : Option Nat) (e : Error)
    (h : checkKValue n v idx = Except.error e) : e ≠ Error.sameLength := by
  unfold checkKValue at h
  split at h
  · rw [checkRange_error n _ _ e h]; simp
  · cases h; simp

/-- No array check throws the length-mismatch error. -/
theorem checkedArray_error_ne (name : String) (arr : List JSValue)
    (chk : Nat → JSValue → Except Error Unit)
    (hchk : ∀ i v e, chk i v = Except.error e → e ≠ Error.sameLength) (e : Error)
    (h : (checkArray name arr >>= fun _ =>
      forLoop (fun i _ => chk i (index arr i)) arr.length 0 ()) = Except.error e) :
    e ≠ Error.sameLength := by
  rcases checkedArray_error name arr chk e h with h1 | ⟨i, _, h2⟩
  · rw [h1]; simp
  · exact hchk i _ e h2

theorem checkPubKeyArr_error_ne (arr : List JSValue) (e : Error)
    (h : checkPubKeyArr arr = Except.error e) : e ≠ Error.sameLength :=
  checkedArray_error_ne "pubKeys" arr (fun i v => checkBuffer "pubKey" v 32 (some i))
    (fun i v e he => checkBuffer_error_ne "pubKey" v 32 (some i) e he) e h

theorem checkMessageArr_error_ne (arr : List JSValue) (e : Error)
    (h : checkMessageArr arr = Except.error e) : e ≠ Error.sameLength :=
  checkedArray_error_ne "messages" arr (fun i v => checkBuffer "message" v 32 (some i))
    (fun i v e he => checkBuffer_error_ne "message" v 32 (some i) e he) e h

theorem checkNonceArr_error_ne (arr : List JSValue) (e : Error)
    (h : checkNonceArr arr = Except.error e) : e ≠ Error.sameLength :=
  checkedArray_error_ne "nonces" arr (fun i v => checkBuffer "nonce" v 32 (some i))
    (fun i v e he => checkBuffer_error_ne "nonce" v 32 (some i) e he) e h

theorem checkPrivateKeyArr_error_ne (n : Int) (arr : List JSValue) (e : Error)
    (h : checkPrivateKeyArr n arr = Except.error e) : e ≠ Error.sameLength :=
  checkedArray_error_ne "privateKeys" arr (fun _ v => checkPrivateKey n v none)
    (fun _ v e he => checkPrivateKey_error_ne n v none e he) e h

theorem checkKValueArr_error_ne (n : Int) (arr : List JSValue) (e : Error)
    (h : checkKValueArr n arr = Except.error e) : e ≠ Error.sameLength :=
  checkedArray_error_ne "KValues" arr (fun _ v => checkKValue n v none)
    (fun _ v e he => checkKValue_error_ne n v none e he) e h

theorem createAdaptorPoint_of_check_error (C : CurveOps) (pubKeys messages rValues : List JSValue)
    (e : Error) (h : checkCreateAdaptorPointParams pubKeys messages rValues = Except.error e) :
    createAdaptorPoint C pubKeys messages rValues = Except.error e := by
  unfold createAdaptorPoint
  rw [h, bind_error]

theorem combineSecrets_of_check_error (n : Int) (secrets : List JSValue) (e : Error)
    (h : checkSecretArr secrets = Except.error e) :
    combineSecrets n secrets = Except.error e := by
  unfold combineSecrets
  rw [h, bind_error]

/-- The three array checks and the length comparison, in sequence. -/
theorem checkThree_cases (a b c : Except Error Unit) (l1 l2 l3 : Nat) :
    (∀ e, a = Except.error e →
      (a >>= fun _ => b >>= fun _ => c >>= fun _ =>
        if l1 ≠ l2 ∨ l2 ≠ l3 then (throw Error.sameLength : Except Error Unit) else pure ())
        = Except.error e) ∧
    (a = Except.ok () → ∀ e, b = Except.error e →
      (a >>= fun _ => b >>= fun _ => c >>= fun _ =>
        if l1 ≠ l2 ∨ l2 ≠ l3 then (throw Error.sameLength : Except Error Unit) else pure ())
        = Except.error e) ∧
    (a = Except.ok () → b = Except.ok () → ∀ e, c = Except.error e →
      (a >>= fun _ => b >>= fun _ => c >>= fun _ =>
        if l1 ≠ l2 ∨ l2 ≠ l3 then (throw Error.sameLength : Except Error Unit) else pure ())
        = Except.error e) ∧
    (a = Except.ok () → b = Except.ok () → c = Except.ok () → (l1 ≠ l2 ∨ l2 ≠ l3) →
      (a >>= fun _ => b >>= fun _ => c >>= fun _ =>
        if l1 ≠ l2 ∨ l2 ≠ l3 then (throw Error.sameLength : Except Error Unit) else pure ())
        = Except.error Error.sameLength) := by
  refine ⟨?_, ?_, ?_, ?_⟩
  · intro e ha
    rw [ha, bind_error]
  · intro ha e hb
    rw [ha, bind_ok, hb, bind_error]
  · intro ha hb e hc
    rw [ha, bind_ok, hb, bind_ok, hc, bind_error]
  · intro ha hb hc hl
    rw [ha, bind_ok, hb, bind_ok, hc, bind_ok, if_pos hl]
    rfl

/-- The point gate runs its three array checks and the length comparison in sequence. -/
theorem checkPoint_cases (a b c : List JSValue) :
    (∀ e, checkPubKeyArr a = Except.error e →
      checkCreateAdaptorPointParams a b c = Except.error e) ∧
    (checkPubKeyArr a = Except.ok () → ∀ e, checkMessageArr b = Except.error e →
      checkCreateAdaptorPointParams a b c = Except.error e) ∧
    (checkPubKeyArr a = Except.ok () → checkMessageArr b = Except.ok () →
      ∀ e, checkNonceArr c = Except.error e →
      checkCreateAdaptorPointParams a b c = Except.error e) ∧
    (checkPubKeyArr a = Except.ok () → checkMessageArr b = Except.ok () →
      checkNonceArr c = Except.ok () → (a.length ≠ b.length ∨ b.length ≠ c.length) →
      checkCreateAdaptorPointParams a b c = Except.error Error.sameLength) :=
  checkThree_cases (checkPubKeyArr a) (checkMessageArr b) (checkNonceArr c)
    a.length b.length c.length

/-- The secret gate runs its three array checks and the length comparison in sequence. -/
theorem checkSecret_cases (n : Int) (a b c : List JSValue) :
    (∀ e, checkPrivateKeyArr n a = Except.error e →
      checkCreateAdaptorSecretParams n a b c = Except.error e) ∧
    (checkPrivateKeyArr n a = Except.ok () → ∀ e, checkMessageArr b = Except.error e →
      checkCreateAdaptorSecretParams n a b c = Except.error e) ∧
    (checkPrivateKeyArr n a = Except.ok () → checkMessageArr b = Except.ok () →
      ∀ e, checkKValueArr n c = Except.error e →
      checkCreateAdaptorSecretParams n a b c = Except.error e) ∧
    (checkPrivateKeyArr n a = Except.ok () → checkMessageArr b = Except.ok () →
      checkKValueArr n c = Except.ok () → (a.length ≠ b.length ∨ b.length ≠ c.length) →
      checkCreateAdaptorSecretParams n a b c = Except.error Error.sameLength) :=
  checkThree_cases (checkPrivateKeyArr n a) (checkMessageArr b) (checkKValueArr n c)
    a.length b.length c.length

/-! ## Arrays of 32-byte buffers -/

theorem isBuffer32_iff (v : JSValue) :
    isBuffer32 v = true ↔ ∃ b, v = JSValue.buffer b ∧ b.length = 32 := by
  cases v with
  | buffer b => simp [isBuffer32]
  | undefined => simp [isBuffer32]
  | bigInteger k => simp [isBuffer32]
  | other => simp [isBuffer32]

theorem buffers_of_all (arr : List JSValue)
    (h : ∀ v ∈ arr, ∃ b, v = JSValue.buffer b ∧ b.length = 32) :
    ∃ bs : List Buffer, arr = bs.map JSValue.buffer ∧ ∀ b ∈ bs, b.length = 32 := by
  induction arr with
  | nil => exact ⟨[], rfl, by simp⟩
  | cons v rest ih =>
    obtain ⟨b, hb, hl⟩ := h v (by simp)
    obtain ⟨bs, hbs, hall⟩ := ih (fun w hw => h w (by simp [hw]))
    refine ⟨b :: bs, by simp [hb, hbs], ?_⟩
    intro c hc
    rcases List.mem_cons.1 hc with hc | hc
    · rw [hc]; exact hl
    · exact hall c hc

/-- After `checkSecretArr`, `combineSecrets` returns a buffer of 32 bytes. -/
theorem combineSecrets_ok_of_check (n : Int) (hn0 : 0 < n) (hn : n ≤ 2 ^ 256)
    (secrets : List JSValue) (h : checkSecretArr secrets = Except.ok ()) :
    ∃ r, combineSecrets n secrets = Except.ok r ∧ r.length = 32 := by
  obtain ⟨hne, hall⟩ := (checkSecretArr_ok_iff secrets).1 h
  obtain ⟨bs, rfl, hlen⟩ := buffers_of_all secrets hall
  cases bs with
  | nil => simp at hne
  | cons a rest =>
    refine ⟨_, combineSecrets_buffers n a rest hlen, ?_⟩
    by_cases hr : rest = []
    · rw [if_pos hr, intToBuffer_fromBuffer a (hlen a (by simp))]
      exact hlen a (by simp)
    · rw [if_neg hr]
      exact length_intToBuffer _ (Int.emod_nonneg _ (by omega))
        (lt_of_lt_of_le (Int.emod_lt_of_pos _ hn0) hn)

/-! ## The error of the first invalid element -/

theorem bufferArr_first (arrName name : String) (arr : List JSValue) (i : Nat)
    (h : FirstInvalid isBuffer32 arr i) :
    (checkArray arrName arr >>= fun _ =>
      forLoop (fun i _ => checkBuffer name (index arr i) 32 (some i)) arr.length 0 ())
      = Except.error (bufferError name i (index arr i)) :=
  checkedArray_first arrName arr (fun i v => checkBuffer name v 32 (some i)) i _ h.1
    (checkBuffer_error name _ i h.2.1) (fun j hj => checkBuffer_ok name _ j (h.2.2 j hj))

theorem checkSecretArr_first (arr : List JSValue) (i : Nat)
    (h : FirstInvalid isBuffer32 arr i) :
    checkSecretArr arr = Except.error (bufferError "secrets" i (index arr i)) :=
  bufferArr_first "secrets" "secrets" arr i h

theorem checkPubKeyArr_first (arr : List JSValue) (i : Nat)
    (h : FirstInvalid isBuffer32 arr i) :
    checkPubKeyArr arr = Except.error (bufferError "pubKey" i (index arr i)) :=
  bufferArr_first "pubKeys" "pubKey" arr i h

theorem checkMessageArr_first (arr : List JSValue) (i : Nat)
    (h : FirstInvalid isBuffer32 arr i) :
    checkMessageArr arr = Except.error (bufferError "message" i (index arr i)) :=
  bufferArr_first "messages" "message" arr i h

theorem checkNonceArr_first (arr : List JSValue) (i : Nat)
    (h : FirstInvalid isBuffer32 arr i) :
    checkNonceArr arr = Except.error (bufferError "nonce" i (index arr i)) :=
  bufferArr_first "nonces" "nonce" arr i h

theorem checkPrivateKeyArr_first (n : Int) (arr : List JSValue) (i : Nat)
    (h : FirstInvalid (isScalar n) arr i) :
    checkPrivateKeyArr n arr = Except.error (scalarError "privateKey" (index arr i)) :=
  checkedArray_first "privateKeys" arr (fun _ v => checkPrivateKey n v none) i _ h.1
    (checkPrivateKey_error n _ h.2.1) (fun j hj => checkPrivateKey_ok n _ none (h.2.2 j hj))

theorem checkKValueArr_first (n : Int) (arr : List JSValue) (i : Nat)
    (h : FirstInvalid (isScalar n) arr i) :
    checkKValueArr n arr = Except.error (scalarError "kValue" (index arr i)) :=
  checkedArray_first "KValues" arr (fun _ v => checkKValue n v none) i _ h.1
    (checkKValue_error n _ h.2.1) (fun j hj => checkKValue_ok n _ none (h.2.2 j hj))

theorem bufferError_shows (name : String) (i : Nat) (v : JSValue) :
    (bufferError name i v).index = some i ∧ (bufferError name i v).param = some name := by
  cases v <;> exact ⟨rfl, rfl⟩

theorem scalarError_shows (name : String) (v : JSValue) :
    (scalarError name v).index = none ∧ (scalarError name v).param = some name := by
  cases v <;> exact ⟨rfl, rfl⟩

/-! ## The secret side -/

theorem index_map_get {α : Type} (f : α → JSValue) (l : List α) (i : Nat) (hi : i < l.length) :
    index (l.map f) i = f (l.get ⟨i, hi⟩) := by
  simp [index, List.getD_eq_getElem?_getD, List.getElem?_map, List.getElem?_eq_getElem hi]

/-- A loop whose body at index `i` applies `f` to the `i`-th element of a list is the fold
of `f` over the list. -/
theorem forLoop_list {σ τ : Type} (l : List τ) (body : Nat → σ → Except Error σ)
    (f : σ → τ → σ)
    (h : ∀ (i : Nat) (hi : i < l.length) (s : σ), body i s = Except.ok (f s (l.get ⟨i, hi⟩)))
    (count : Nat) :
    ∀ (start : Nat) (s : σ), start + count = l.length →
      forLoop body count start s = Except.ok ((l.drop start).foldl f s) := by
  induction count with
  | zero =>
    intro start s hs
    have : l.drop start = [] := List.drop_eq_nil_of_le (by omega)
    simp [forLoop, this, pure, Except.pure]
  | succ count ih =>
    intro start s hs
    have hlt : start < l.length := by omega
    simp only [forLoop]
    rw [h start hlt s, bind_ok, ih (start + 1) _ (by omega), List.drop_eq_getElem_cons hlt]
    rfl

theorem smul_G_ne_zero (C : CurveOps) (hC : CurveLaws C) (v : Int) (h1 : 1 ≤ v)
    (h2 : v ≤ C.n - 1) : C.multiply C.G v ≠ 0 := by
  rw [hC.multiply_eq C.G v (by omega)]
  exact hC.order_min v.toNat (by omega) (by omega)

theorem affineX_ok (C : CurveOps) (hC : CurveLaws C) (P : C.Point) (hP : P ≠ 0) :
    ∃ v, C.x P = some v ∧ affineX C P = Except.ok v := by
  cases hx : C.x P with
  | none => exact absurd ((hC.x_none P).1 hx) hP
  | some v => exact ⟨v, rfl, by simp [affineX, hx, pure, Except.pure]⟩

theorem affineY_ok (C : CurveOps) (hC : CurveLaws C) (P : C.Point) (hP : P ≠ 0) :
    ∃ w, C.y P = some w ∧ affineY C P = Except.ok w := by
  cases hy : C.y P with
  | none => exact absurd ((hC.y_none P).1 hy) hP
  | some w => exact ⟨w, rfl, by simp [affineY, hy, pure, Except.pure]⟩

theorem affineX_smul_G (C : CurveOps) (hC : CurveLaws C) (v : Int) (h1 : 1 ≤ v)
    (h2 : v ≤ C.n - 1) :
    ∃ x, affineX C (C.multiply C.G v) = Except.ok x ∧ intToBuffer x = xOnly C v := by
  obtain ⟨x, hx, hax⟩ := affineX_ok C hC _ (smul_G_ne_zero C hC v h1 h2)
  exact ⟨x, hax, by simp [xOnly, hx]⟩

theorem getEvenKey_smul_G (C : CurveOps) (hC : CurveLaws C) (v : Int) (h1 : 1 ≤ v)
    (h2 : v ≤ C.n - 1) :
    getEvenKey C (C.multiply C.G v) v = Except.ok (evenScalar C v) := by
  obtain ⟨w, hw, haw⟩ := affineY_ok C hC _ (smul_G_ne_zero C hC v h1 h2)
  unfold getEvenKey isEven
  rw [haw]
  simp only [bind_ok, pure_eq_ok, evenScalar, hasEvenY, hw]
  by_cases hp : w % 2 = 0 <;> simp [hp]

theorem getE_buffer (C : CurveOps) (Rx Px m : Buffer) :
    getE C Rx Px (JSValue.buffer m) = Except.ok (challenge C Rx Px m) := rfl

/-- One iteration of the loop of `createAdaptorSecret` on a valid participant adds its
`k' + e * d` to the accumulator. -/
theorem createAdaptorSecretStep_eq (C : CurveOps) (hC : CurveLaws C) (ss : List Signer)
    (hv : ∀ s ∈ ss, s.Valid C.n) (i : Nat) (hi : i < ss.length) (acc : Option Int) :
    createAdaptorSecretStep C (privKeysOf ss) (messagesOf ss) (kValuesOf ss) i acc
      = Except.ok (some (acc.getD 0 + signatureTerm C (ss.get ⟨i, hi⟩))) := by
  have hvalid := hv _ (List.get_mem ss i hi)
  obtain ⟨⟨hd1, hd2⟩, _, hk1, hk2⟩ := hvalid
  obtain ⟨px, hpx, hpxb⟩ := affineX_smul_G C hC _ hd1 hd2
  obtain ⟨rx, hrx, hrxb⟩ := affineX_smul_G C hC _ hk1 hk2
  unfold createAdaptorSecretStep
  rw [privKeysOf, messagesOf, kValuesOf, index_map_get _ ss i hi, index_map_get _ ss i hi,
    index_map_get _ ss i hi]
  simp only [asBigInteger, pure_eq_ok, bind_ok]
  rw [hpx, bind_ok, getEvenKey_smul_G C hC _ hd1 hd2, bind_ok,
    getEvenKey_smul_G C hC _ hk1 hk2, bind_ok, hrx, bind_ok, getE_buffer, bind_ok, hpxb, hrxb]
  cases acc with
  | none => simp [signatureTerm]
  | some a => simp [signatureTerm, add_assoc]

theorem foldl_signatureTerm (C : CurveOps) (ss : List Signer) (hne : ss ≠ []) :
    ∀ acc : Option Int,
      ss.foldl (fun (acc : Option Int) s => some (acc.getD 0 + signatureTerm C s)) acc
        = some (acc.getD 0 + (ss.map (signatureTerm C)).sum) := by
  induction ss with
  | nil => exact absurd rfl hne
  | cons s rest ih =>
    intro acc
    cases rest with
    | nil => simp
    | cons s2 rest2 =>
      rw [List.foldl_cons, ih (by simp)]
      simp [add_assoc]

/-- On valid participants `createAdaptorSecret` returns the sum of the `k' + e * d`
reduced modulo `n`, on 32 bytes. -/
theorem createAdaptorSecret_signers (C : CurveOps) (hC : CurveLaws C) (ss : List Signer)
    (hne : ss ≠ []) (hv : ∀ s ∈ ss, s.Valid C.n) :
    createAdaptorSecret C (privKeysOf ss) (messagesOf ss) (kValuesOf ss)
      = Except.ok (intToBuffer ((ss.map (signatureTerm C)).sum % C.n)) := by
  have hchk : checkCreateAdaptorSecretParams C.n (privKeysOf ss) (messagesOf ss) (kValuesOf ss)
      = Except.ok () := by
    rw [checkCreateAdaptorSecretParams_iff]
    simp only [privKeysOf, messagesOf, kValuesOf, ne_eq, List.map_eq_nil_iff, List.mem_map,
      List.length_map, and_true, forall_exists_index, and_imp]
    refine ⟨hne, hne, hne, ?_, ?_, ?_⟩
    · rintro v s hs rfl
      exact ⟨s.privKey, rfl, (hv s hs).1⟩
    · rintro v s hs rfl
      exact ⟨s.message, rfl, (hv s hs).2.1⟩
    · rintro v s hs rfl
      exact ⟨s.k, rfl, (hv s hs).2.2⟩
  have hloop := forLoop_list ss
    (createAdaptorSecretStep C (privKeysOf ss) (messagesOf ss) (kValuesOf ss))
    (fun (acc : Option Int) s => some (acc.getD 0 + signatureTerm C s))
    (fun i hi acc => createAdaptorSecretStep_eq C hC ss hv i hi acc) ss.length 0 none (by simp)
  have hlen : (kValuesOf ss).length = ss.length := by simp [kValuesOf]
  unfold createAdaptorSecret
  rw [hchk, bind_ok, hlen, hloop, bind_ok, List.drop_zero, foldl_signatureTerm C ss hne]
  simp [nonNull, pure_eq_ok, bind_ok]

/-! ## The point side -/

/-- One iteration of the loop of `createAdaptorPoint` on 32-byte buffers: the contribution
of the participant is added to the accumulator, which is `null` exactly before the first
iteration. -/
theorem createAdaptorPointStep_eq (C : CurveOps) (ps : List PointInput) (i : Nat)
    (hi : i < ps.length) (acc : Option C.Point) (h0 : i = 0 → acc = none)
    (h1 : 0 < i → acc ≠ none) :
    createAdaptorPointStep C (pubKeysIn ps) (messagesIn ps) (rValuesIn ps) i acc
      = (pointContribution C (ps.get ⟨i, hi⟩) >>= fun t => pure (some (acc.getD 0 + t))) := by
  unfold createAdaptorPointStep pointContribution
  rw [pubKeysIn, messagesIn, rValuesIn, index_map_get _ ps i hi, index_map_get _ ps i hi,
    index_map_get _ ps i hi]
  simp only [liftX, bufferToInt_buffer, getE_buffer, bind_ok, pure_eq_ok]
  cases hP : C.lift (ps.get ⟨i, hi⟩).pubKey with
  | error e => simp only [bind_error]
  | ok P =>
    simp only [bind_ok]
    cases hx : affineX C P with
    | error e => simp only [bind_error]
    | ok x =>
      simp only [bind_ok]
      cases hR : C.lift (ps.get ⟨i, hi⟩).rValue with
      | error e => simp only [bind_error]
      | ok R =>
        simp only [bind_ok]
        by_cases hz : i = 0
        · rw [h0 hz]
          simp [hz, bind_ok, pure_eq_ok]
        · cases acc with
          | none => exact absurd rfl (h1 (by omega))
          | some a => simp [hz, nonNull, bind_ok, pure_eq_ok, add_assoc]

/-- When every contribution is defined, the loop of `createAdaptorPoint` adds them up. -/
theorem pointLoop_ok (C : CurveOps) (ps : List PointInput) (t : PointInput → C.Point)
    (ht : ∀ p ∈ ps, pointContribution C p = Except.ok (t p)) (count : Nat) :
    ∀ (start : Nat) (acc : Option C.Point), start + count = ps.length →
      (start = 0 → acc = none) → (0 < start → acc ≠ none) →
      forLoop (createAdaptorPointStep C (pubKeysIn ps) (messagesIn ps) (rValuesIn ps))
          count start acc
        = Except.ok ((ps.drop start).foldl (fun acc p => some (acc.getD 0 + t p)) acc) := by
  induction count with
  | zero =>
    intro start acc hs _ _
    have : ps.drop start = [] := List.drop_eq_nil_of_le (by omega)
    simp [forLoop, this, pure, Except.pure]
  | succ count ih =>
    intro start acc hs h0 h1
    have hlt : start < ps.length := by omega
    simp only [forLoop]
    rw [createAdaptorPointStep_eq C ps start hlt acc h0 h1,
      ht _ (List.get_mem ps start hlt), bind_ok, pure_eq_ok, bind_ok,
      ih (start + 1) _ (by omega) (by omega) (by simp), List.drop_eq_getElem_cons hlt]
    rfl

/-- When some contribution is not defined, the loop of `createAdaptorPoint` throws. -/
theorem pointLoop_error (C : CurveOps) (ps : List PointInput) (count : Nat) :
    ∀ (start : Nat) (acc : Option C.Point), start + count = ps.length →
      (start = 0 → acc = none) → (0 < start → acc ≠ none) →
      (∃ p ∈ ps.drop start, ∃ e, pointContribution C p = Except.error e) →
      ∃ e, forLoop (createAdaptorPointStep C (pubKeysIn ps) (messagesIn ps) (rValuesIn ps))
          count start acc = Except.error e := by
  induction count with
  | zero =>
    intro start acc hs _ _ hex
    have : ps.drop start = [] := List.drop_eq_nil_of_le (by omega)
    rw [this] at hex
    obtain ⟨p, hp, _⟩ := hex
    simp at hp
  | succ count ih =>
    intro start acc hs h0 h1 hex
    have hlt : start < ps.length := by omega
    simp only [forLoop]
    rw [createAdaptorPointStep_eq C ps start hlt acc h0 h1]
    cases hc : pointContribution C (ps.get ⟨start, hlt⟩) with
    | error e => exact ⟨e, by rw [bind_error, bind_error]⟩
    | ok t =>
      rw [bind_ok, pure_eq_ok, bind_ok]
      apply ih (start + 1) _ (by omega) (by omega) (by simp)
      obtain ⟨p, hp, e, he⟩ := hex
      rw [List.drop_eq_getElem_cons hlt, List.mem_cons] at hp
      rcases hp with hp | hp
      · subst hp
        rw [show ps[start] = ps.get ⟨start, hlt⟩ from rfl, hc] at he
        cases he
      · exact ⟨p, hp, e, he⟩

theorem foldl_contributions (C : CurveOps) (t : PointInput → C.Point) (ps : List PointInput)
    (hne : ps ≠ []) :
    ∀ acc : Option C.Point,
      ps.foldl (fun acc p => some (acc.getD 0 + t p)) acc
        = some (acc.getD 0 + (ps.map t).sum) := by
  induction ps with
  | nil => exact absurd rfl hne
  | cons p rest ih =>
    intro acc
    cases rest with
    | nil => simp
    | cons p2 rest2 =>
      rw [List.foldl_cons, ih (by simp)]
      simp [add_assoc]

theorem checkCreateAdaptorPointParams_inputs (ps : List PointInput) (hne : ps ≠ [])
    (hv : ∀ p ∈ ps, p.Valid) :
    checkCreateAdaptorPointParams (pubKeysIn ps) (messagesIn ps) (rValuesIn ps)
      = Except.ok () := by
  rw [checkCreateAdaptorPointParams_iff]
  simp only [pubKeysIn, messagesIn, rValuesIn, ne_eq, List.map_eq_nil_iff, List.mem_map,
    List.length_map, and_true, forall_exists_index, and_imp]
  refine ⟨hne, hne, hne, ?_, ?_, ?_⟩
  · rintro v p hp rfl
    exact ⟨p.pubKey, rfl, (hv p hp).1⟩
  · rintro v p hp rfl
    exact ⟨p.message, rfl, (hv p hp).2.1⟩
  · rintro v p hp rfl
    exact ⟨p.rValue, rfl, (hv p hp).2.2⟩

/-- On 32-byte buffers whose contributions are all defined, `createAdaptorPoint` returns
the encoded x-coordinate of the sum of the contributions. -/
theorem createAdaptorPoint_ok (C : CurveOps) (ps : List PointInput) (hne : ps ≠ [])
    (hv : ∀ p ∈ ps, p.Valid) (t : PointInput → C.Point)
    (ht : ∀ p ∈ ps, pointContribution C p = Except.ok (t p)) :
    createAdaptorPoint C (pubKeysIn ps) (messagesIn ps) (rValuesIn ps)
      = encodeX C (ps.map t).sum := by
  have hlen : (pubKeysIn ps).length = ps.length := by simp [pubKeysIn]
  unfold createAdaptorPoint
  rw [checkCreateAdaptorPointParams_inputs ps hne hv, bind_ok, hlen,
    pointLoop_ok C ps t ht ps.length 0 none (by simp) (fun _ => rfl) (by simp), bind_ok,
    List.drop_zero, foldl_contributions C t ps hne]
  simp [nonNull, pure_eq_ok, bind_ok, encodeX]

/-- On 32-byte buffers one of whose contributions is not defined, `createAdaptorPoint`
throws. -/
theorem createAdaptorPoint_error (C : CurveOps) (ps : List PointInput) (hne : ps ≠ [])
    (hv : ∀ p ∈ ps, p.Valid) (hex : ∃ p ∈ ps, ∃ e, pointContribution C p = Except.error e) :
    ∃ e, createAdaptorPoint C (pubKeysIn ps) (messagesIn ps) (rValuesIn ps)
      = Except.error e := by
  have hlen : (pubKeysIn ps).length = ps.length := by simp [pubKeysIn]
  obtain ⟨e, he⟩ := pointLoop_error C ps ps.length 0 none (by simp) (fun _ => rfl) (by simp)
    (by simpa using hex)
  refine ⟨e, ?_⟩
  unfold createAdaptorPoint
  rw [checkCreateAdaptorPointParams_inputs ps hne hv, bind_ok, hlen, he, bind_error]

/-! ## Matched participants: the point side is `G` times the secret side -/

theorem multiply_eq_zsmul (C : CurveOps) (hC : CurveLaws C) (P : C.Point) (k : Int)
    (hk : 0 ≤ k) : C.multiply P k = k • P := by
  rw [hC.multiply_eq P k hk, ← natCast_zsmul, Int.toNat_of_nonneg hk]

theorem n_zsmul_G (C : CurveOps) (hC : CurveLaws C) : C.n • C.G = 0 := by
  have h := hC.order_smul
  have hn := hC.n_pos
  rw [← natCast_zsmul, Int.toNat_of_nonneg (by omega)] at h
  exact h

theorem emod_zsmul_G (C : CurveOps) (hC : CurveLaws C) (S : Int) :
    (S % C.n) • C.G = S • C.G := by
  conv_rhs => rw [← Int.ediv_add_emod S C.n]
  rw [add_smul, mul_comm, mul_smul, n_zsmul_G C hC, smul_zero, zero_add]

theorem evenScalar_range (C : CurveOps) (v : Int) (h1 : 1 ≤ v) (h2 : v ≤ C.n - 1) :
    1 ≤ evenScalar C v ∧ evenScalar C v ≤ C.n - 1 := by
  unfold evenScalar
  split <;> omega

theorem challenge_nonneg (C : CurveOps) (hC : CurveLaws C) (Rx Px m : Buffer) :
    0 ≤ challenge C Rx Px m := by
  have := hC.n_pos
  exact Int.emod_nonneg _ (by omega)

/-- The lift of the x-coordinate of `G * v` is `G` times the even-y-normalised scalar,
and it has the same x-coordinate. -/
theorem lift_xOnly (C : CurveOps) (hC : CurveLaws C) (v : Int) (h1 : 1 ≤ v)
    (h2 : v ≤ C.n - 1) :
    C.lift (xOnly C v) = Except.ok (C.multiply C.G (evenScalar C v)) ∧
      ∃ x, 0 ≤ x ∧ x < 2 ^ 256 ∧ intToBuffer x = xOnly C v ∧
        affineX C (C.multiply C.G (evenScalar C v)) = Except.ok x := by
  have hne := smul_G_ne_zero C hC v h1 h2
  obtain ⟨x, hx, hax⟩ := affineX_ok C hC _ hne
  obtain ⟨w, hw, _⟩ := affineY_ok C hC _ hne
  have hxo : xOnly C v = intToBuffer x := by simp [xOnly, hx]
  have hr := hC.x_range _ x hx
  have hl := hC.lift_x _ x w hx hw
  by_cases hp : w % 2 = 0
  · have he : evenScalar C v = v := by simp [evenScalar, hasEvenY, hw, hp]
    rw [he, hxo]
    rw [if_pos hp] at hl
    exact ⟨hl, x, hr.1, hr.2, rfl, hax⟩
  · have he : evenScalar C v = C.n - v := by simp [evenScalar, hasEvenY, hw, hp]
    have hneg : C.multiply C.G (C.n - v) = -C.multiply C.G v := by
      rw [multiply_eq_zsmul C hC _ _ (by omega), multiply_eq_zsmul C hC _ _ (by omega),
        sub_smul, n_zsmul_G C hC, zero_sub]
    rw [he, hxo, hneg]
    rw [if_neg hp] at hl
    refine ⟨hl, x, hr.1, hr.2, rfl, ?_⟩
    simp [affineX, hC.x_neg, hx, pure_eq_ok]

theorem matched_valid (C : CurveOps) (hC : CurveLaws C) (s : Signer) (hs : s.Valid C.n) :
    (matched C s).Valid := by
  obtain ⟨⟨hd1, hd2⟩, hm, hk1, hk2⟩ := hs
  obtain ⟨_, xd, hxd0, hxd1, hxd, _⟩ := lift_xOnly C hC _ hd1 hd2
  obtain ⟨_, xk, hxk0, hxk1, hxk, _⟩ := lift_xOnly C hC _ hk1 hk2
  refine ⟨?_, hm, ?_⟩
  · show (xOnly C s.privKey).length = 32
    rw [← hxd]; exact length_intToBuffer _ hxd0 hxd1
  · show (xOnly C s.k).length = 32
    rw [← hxk]; exact length_intToBuffer _ hxk0 hxk1

/-- The contribution of a matched participant is `G` times its `k' + e * d`. -/
theorem pointContribution_matched (C : CurveOps) (hC : CurveLaws C) (s : Signer)
    (hs : s.Valid C.n) :
    pointContribution C (matched C s) = Except.ok (signatureTerm C s • C.G) := by
  obtain ⟨⟨hd1, hd2⟩, hm, hk1, hk2⟩ := hs
  obtain ⟨hld, xd, hxd0, hxd1, hxd, haxd⟩ := lift_xOnly C hC _ hd1 hd2
  obtain ⟨hlk, xk, hxk0, hxk1, hxk, _⟩ := lift_xOnly C hC _ hk1 hk2
  have hrt : intToBuffer (fromBuffer (xOnly C s.k)) = xOnly C s.k := by
    rw [← hxk, fromBuffer_intToBuffer _ hxk0]
  have hed := evenScalar_range C _ hd1 hd2
  have hek := evenScalar_range C _ hk1 hk2
  unfold pointContribution
  simp only [matched]
  rw [hld, bind_ok, haxd, bind_ok, hlk, bind_ok, pure_eq_ok, hxd, hrt,
    multiply_eq_zsmul C hC _ _ (challenge_nonneg C hC _ _ _),
    multiply_eq_zsmul C hC _ _ (by omega), multiply_eq_zsmul C hC _ _ (by omega)]
  simp only [signatureTerm, add_smul, mul_smul]

theorem sum_zsmul_G (C : CurveOps) (f : Signer → Int) (ss : List Signer) :
    (ss.map (fun s => f s • C.G)).sum = (ss.map f).sum • C.G := by
  induction ss with
  | nil => simp
  | cons s rest ih => simp [ih, add_smul]

/-- Point/secret consistency on matched participants: `createAdaptorPoint` returns the
encoded x-coordinate of `G` times the reduced sum of the `k' + e * d`. -/
theorem createAdaptorPoint_matched (C : CurveOps) (hC : CurveLaws C) (ss : List Signer)
    (hne : ss ≠ []) (hv : ∀ s ∈ ss, s.Valid C.n) :
    createAdaptorPoint C (pubKeysOf C ss) (messagesOf ss) (rValuesOf C ss)
      = encodeX C (C.multiply C.G ((ss.map (signatureTerm C)).sum % C.n)) := by
  have h1 : pubKeysOf C ss = pubKeysIn (ss.map (matched C)) := by
    simp [pubKeysOf, pubKeysIn, matched, List.map_map, Function.comp_def]
  have h2 : messagesOf ss = messagesIn (ss.map (matched C)) := by
    simp [messagesOf, messagesIn, matched, List.map_map, Function.comp_def]
  have h3 : rValuesOf C ss = rValuesIn (ss.map (matched C)) := by
    simp [rValuesOf, rValuesIn, matched, List.map_map, Function.comp_def]
  have hn := hC.n_pos
  rw [h1, h2, h3, multiply_eq_zsmul C hC _ _ (Int.emod_nonneg _ (by omega)),
    emod_zsmul_G C hC, ← sum_zsmul_G C (signatureTerm C) ss]
  have hc : ∀ s ∈ ss, contribution C (matched C s) = signatureTerm C s • C.G := by
    intro s hs
    simp [contribution, pointContribution_matched C hC s (hv s hs)]
  rw [createAdaptorPoint_ok C (ss.map (matched C)) (by simpa using hne)
    (by
      intro p hp
      obtain ⟨s, hs, rfl⟩ := List.mem_map.1 hp
      exact matched_valid C hC s (hv s hs))
    (contribution C)
    (by
      intro p hp
      obtain ⟨s, hs, rfl⟩ := List.mem_map.1 hp
      rw [hc s hs]
      exact pointContribution_matched C hC s (hv s hs)),
    List.map_map]
  congr 2
  exact List.map_congr_left (fun s hs => hc s hs)

/-! ## The group sum of `createAdaptorPoint` -/

theorem foldl_add_eq_sum (C : CurveOps) (t : PointInput → C.Point) (ps : List PointInput) :
    ∀ acc : C.Point, ps.foldl (fun acc p => acc + t p) acc = acc + (ps.map t).sum := by
  induction ps with
  | nil => intro acc; simp
  | cons p rest ih =>
    intro acc
    rw [List.foldl_cons, ih, List.map_cons, List.sum_cons, add_assoc]

theorem groupSum_eq_sum (C : CurveOps) (ps : List PointInput) :
    groupSum C ps = (ps.map (groupTerm C)).sum := by
  rw [groupSum, foldl_add_eq_sum, zero_add]

/-- Where both lifts succeed, the contribution of a participant in the loop is its term
`R + e * P`. -/
theorem pointContribution_lifted (C : CurveOps) (hC : CurveLaws C)
    (hlift : ∀ b P, C.lift b = Except.ok P → P ≠ 0) (p : PointInput) (hv : p.Valid)
    (hP : ∃ P, C.lift p.pubKey = Except.ok P) (hR : ∃ R, C.lift p.rValue = Except.ok R) :
    pointContribution C p = Except.ok (groupTerm C p) := by
  obtain ⟨P, hP⟩ := hP
  obtain ⟨R, hR⟩ := hR
  obtain ⟨x, hx, hax⟩ := affineX_ok C hC P (hlift _ P hP)
  have hrt : intToBuffer (fromBuffer p.rValue) = p.rValue := intToBuffer_fromBuffer _ hv.2.2
  unfold pointContribution groupTerm liftedPoint
  rw [hP, bind_ok, hax, bind_ok, hR, bind_ok, pure_eq_ok, hrt,
    multiply_eq_zsmul C hC _ _ (challenge_nonneg C hC _ _ _)]
  simp [hx]

/-- With all lifts succeeding, `createAdaptorPoint` returns the encoded x-coordinate of
the group sum. -/
theorem createAdaptorPoint_groupSum (C : CurveOps) (hC : CurveLaws C)
    (hlift : ∀ b P, C.lift b = Except.ok P → P ≠ 0) (ps : List PointInput) (hne : ps ≠ [])
    (hv : ∀ p ∈ ps, p.Valid)
    (hl : ∀ p ∈ ps, (∃ P, C.lift p.pubKey = Except.ok P) ∧ ∃ R, C.lift p.rValue = Except.ok R) :
    createAdaptorPoint C (pubKeysIn ps) (messagesIn ps) (rValuesIn ps)
      = encodeX C (groupSum C ps) := by
  rw [groupSum_eq_sum]
  exact createAdaptorPoint_ok C ps hne hv (groupTerm C)
    (fun p hp => pointContribution_lifted C hC hlift p (hv p hp) (hl p hp).1 (hl p hp).2)

theorem encodeX_ok (C : CurveOps) (hC : CurveLaws C) (P : C.Point) (hP : P ≠ 0) :
    ∃ pt, pt.length = 32 ∧ encodeX C P = Except.ok pt := by
  obtain ⟨x, hx, hax⟩ := affineX_ok C hC P hP
  have hr := hC.x_range P x hx
  refine ⟨intToBuffer x, length_intToBuffer _ hr.1 hr.2, ?_⟩
  rw [encodeX, hax]
  rfl

theorem toy_lift_ne_zero : ∀ (b : Buffer) (P : ZMod 31), toyLift b = Except.ok P → P ≠ 0 := by
  intro b P h
  unfold toyLift at h
  split at h
  · rename_i k hk
    have hp := List.find?_some hk
    cases h
    intro h0
    rw [h0] at hp
    simp [toyCoords] at hp
  · cases h

/-! ## Sign changes, permutations and the accumulation of `createAdaptorSecret` -/

theorem specAccumulate_eq (C : CurveOps) (ss : List Signer) (hne : ss ≠ []) :
    specAccumulate C ss = (ss.map (signatureTerm C)).sum % C.n := by
  have h := foldl_addMod C.n (ss.map (signatureTerm C)) (by simpa using hne) 0
  rw [List.foldl_map, zero_add] at h
  exact h

theorem multiply_G_neg (C : CurveOps) (hC : CurveLaws C) (v : Int) (h1 : 1 ≤ v)
    (h2 : v ≤ C.n - 1) : C.multiply C.G (C.n - v) = -C.multiply C.G v := by
  rw [multiply_eq_zsmul C hC _ _ (by omega), multiply_eq_zsmul C hC _ _ (by omega),
    sub_smul, n_zsmul_G C hC, zero_sub]

/-- The scalars `v` and `n - v` give the same x-coordinate, opposite parities of y and
the same even-y-normalised scalar. -/
theorem neg_scalar (C : CurveOps) (hC : CurveLaws C) (v : Int) (h1 : 1 ≤ v)
    (h2 : v ≤ C.n - 1) :
    (1 ≤ C.n - v ∧ C.n - v ≤ C.n - 1) ∧ xOnly C (C.n - v) = xOnly C v ∧
      hasEvenY C (C.n - v) = !hasEvenY C v ∧ evenScalar C (C.n - v) = evenScalar C v := by
  have hne := smul_G_ne_zero C hC v h1 h2
  have hne2 : -C.multiply C.G v ≠ 0 := neg_ne_zero.2 hne
  obtain ⟨w, hw, _⟩ := affineY_ok C hC _ hne
  obtain ⟨w2, hw2, _⟩ := affineY_ok C hC _ hne2
  have hpar := hC.y_neg _ w w2 hw hw2
  have hx : xOnly C (C.n - v) = xOnly C v := by
    simp only [xOnly, multiply_G_neg C hC v h1 h2, hC.x_neg]
  have hy : hasEvenY C (C.n - v) = !hasEvenY C v := by
    simp only [hasEvenY, multiply_G_neg C hC v h1 h2, hw, hw2]
    by_cases hp : w % 2 = 0
    · have : ¬ w2 % 2 = 0 := hpar.1 hp
      simp [hp, this]
    · have : w2 % 2 = 0 := by
        by_contra hcon
        exact hp (hpar.2 hcon)
      simp [hp, this]
  refine ⟨⟨by omega, by omega⟩, hx, hy, ?_⟩
  simp only [evenScalar, hy]
  cases hasEvenY C v <;> simp

theorem signatureTerm_negPrivKey (C : CurveOps) (hC : CurveLaws C) (s : Signer)
    (hs : s.Valid C.n) :
    (negPrivKey C.n s).Valid C.n ∧ signatureTerm C (negPrivKey C.n s) = signatureTerm C s := by
  obtain ⟨hd, hm, hk⟩ := hs
  obtain ⟨hr, hx, _, he⟩ := neg_scalar C hC s.privKey hd.1 hd.2
  exact ⟨⟨hr, hm, hk⟩, by simp only [signatureTerm, negPrivKey, hx, he]⟩

theorem signatureTerm_negK (C : CurveOps) (hC : CurveLaws C) (s : Signer)
    (hs : s.Valid C.n) :
    (negK C.n s).Valid C.n ∧ signatureTerm C (negK C.n s) = signatureTerm C s := by
  obtain ⟨hd, hm, hk⟩ := hs
  obtain ⟨hr, hx, _, he⟩ := neg_scalar C hC s.k hk.1 hk.2
  exact ⟨⟨hd, hm, hr⟩, by simp only [signatureTerm, negK, hx, he]⟩

/-- Replacing one participant by one with the same term leaves the list of terms as it
is. -/
theorem map_set_same (f : Signer → Int) (ss : List Signer) :
    ∀ (j : Nat) (hj : j < ss.length) (s2 : Signer), f s2 = f (ss.get ⟨j, hj⟩) →
      (ss.set j s2).map f = ss.map f := by
  induction ss with
  | nil => intro j hj; simp at hj
  | cons a rest ih =>
    intro j hj s2 h
    cases j with
    | zero =>
      simp only [List.set_cons_zero, List.map_cons]
      rw [h]
      rfl
    | succ j =>
      simp only [List.set_cons_succ, List.map_cons]
      rw [ih j (by simpa using hj) s2 h]

theorem valid_set (n : Int) (ss : List Signer) (hv : ∀ s ∈ ss, s.Valid n) (j : Nat)
    (s2 : Signer) (h2 : s2.Valid n) : ∀ s ∈ ss.set j s2, s.Valid n := by
  intro s hs
  rcases List.mem_or_eq_of_mem_set hs with h | h
  · exact hv s h
  · rw [h]; exact h2

/-- Replacing one participant by one with the same term leaves the secret as it is. -/
theorem createAdaptorSecret_set (C : CurveOps) (hC : CurveLaws C) (ss : List Signer)
    (hne : ss ≠ []) (hv : ∀ s ∈ ss, s.Valid C.n) (j : Nat) (hj : j < ss.length)
    (s2 : Signer) (h2 : s2.Valid C.n)
    (ht : signatureTerm C s2 = signatureTerm C (ss.get ⟨j, hj⟩)) :
    createAdaptorSecret C (privKeysOf (ss.set j s2)) (messagesOf (ss.set j s2))
        (kValuesOf (ss.set j s2))
      = Except.ok (intToBuffer ((ss.map (signatureTerm C)).sum % C.n)) := by
  have hne2 : ss.set j s2 ≠ [] := by
    intro h
    have := congrArg List.length h
    simp at this
    exact hne this
  rw [createAdaptorSecret_signers C hC _ hne2 (valid_set C.n ss hv j s2 h2),
    map_set_same (signatureTerm C) ss j hj s2 ht]

/-- The steps of both loops never leave `null` in the accumulator. -/
theorem bind_inv {α β : Type} (x : Except Error α) (f : α → Except Error β) (r : β)
    (h : (x >>= f) = Except.ok r) : ∃ a, x = Except.ok a ∧ f a = Except.ok r := by
  cases x with
  | error e => rw [bind_error] at h; cases h
  | ok a => exact ⟨a, rfl, h⟩

theorem createAdaptorPointStep_some (C : CurveOps) (pubKeys messages rValues : List JSValue)
    (i : Nat) (acc r : Option C.Point)
    (h : createAdaptorPointStep C pubKeys messages rValues i acc = Except.ok r) :
    r ≠ none := by
  unfold createAdaptorPointStep at h
  obtain ⟨_, _, h⟩ := bind_inv _ _ _ h
  obtain ⟨_, _, h⟩ := bind_inv _ _ _ h
  obtain ⟨_, _, h⟩ := bind_inv _ _ _ h
  obtain ⟨_, _, h⟩ := bind_inv _ _ _ h
  obtain ⟨_, _, h⟩ := bind_inv _ _ _ h
  dsimp only at h
  split at h
  · obtain ⟨_, _, h⟩ := bind_inv _ _ _ h
    cases h
    simp
  · obtain ⟨_, _, h⟩ := bind_inv _ _ _ h
    obtain ⟨_, _, h⟩ := bind_inv _ _ _ h
    cases h
    simp

theorem createAdaptorSecretStep_some (C : CurveOps) (privKeys messages kValues : List JSValue)
    (i : Nat) (acc r : Option Int)
    (h : createAdaptorSecretStep C privKeys messages kValues i acc = Except.ok r) :
    r ≠ none := by
  unfold createAdaptorSecretStep at h
  obtain ⟨_, _, h⟩ := bind_inv _ _ _ h
  obtain ⟨_, _, h⟩ := bind_inv _ _ _ h
  obtain ⟨_, _, h⟩ := bind_inv _ _ _ h
  obtain ⟨_, _, h⟩ := bind_inv _ _ _ h
  obtain ⟨_, _, h⟩ := bind_inv _ _ _ h
  obtain ⟨_, _, h⟩ := bind_inv _ _ _ h
  obtain ⟨_, _, h⟩ := bind_inv _ _ _ h
  cases h
  simp

/-- A loop with at least one iteration whose steps leave a value in the accumulator ends
with a value in the accumulator. -/
theorem forLoop_some {α : Type} (body : Nat → Option α → Except Error (Option α))
    (hbody : ∀ i s r, body i s = Except.ok r → r ≠ none) (count : Nat) :
    ∀ (start : Nat) (s acc : Option α), (count = 0 → s ≠ none) →
      forLoop body count start s = Except.ok acc → acc ≠ none := by
  induction count with
  | zero =>
    intro start s acc hs h
    simp only [forLoop, pure_eq_ok] at h
    cases h
    exact hs rfl
  | succ count ih =>
    intro start s acc _ h
    simp only [forLoop] at h
    obtain ⟨r, hr, h⟩ := bind_inv _ _ _ h
    exact ih (start + 1) r acc (fun _ => hbody start s r hr) h

/-! ## The array reads of the loops -/

/-- With the JavaScript read, the loops with explicit reads are the loops of the model. -/
theorem stepWith_index (C : CurveOps) (n : Int) (a b c : List JSValue) :
    createAdaptorPointStepWith (fun arr i => pure (index arr i)) C a b c
        = createAdaptorPointStep C a b c ∧
      createAdaptorSecretStepWith (fun arr i => pure (index arr i)) C a b c
        = createAdaptorSecretStep C a b c ∧
      combineSecretsStepWith (fun arr i => pure (index arr i)) n a
        = combineSecretsStep n a ∧
      createAdaptorPointWith (fun arr i => pure (index arr i)) C a b c
        = createAdaptorPoint C a b c ∧
      createAdaptorSecretWith (fun arr i => pure (index arr i)) C a b c
        = createAdaptorSecret C a b c ∧
      combineSecretsWith (fun arr i => pure (index arr i)) n a = combineSecrets n a :=
  ⟨rfl, rfl, rfl, rfl, rfl, rfl⟩

theorem indexChecked_inside (arr : List JSValue) (i : Nat) (h : i < arr.length) :
    indexChecked arr i = Except.ok (index arr i) := by
  simp [indexChecked, h, pure_eq_ok]

theorem indexChecked_outside (arr : List JSValue) (i : Nat) (h : arr.length ≤ i) :
    indexChecked arr i = Except.error (Error.library "read outside of the array") := by
  have : ¬ i < arr.length := by omega
  simp [indexChecked, this, throw, throwThe, MonadExceptOf.throw]

/-- Two loops whose bodies agree on the indices of the loop agree. -/
theorem forLoop_congr {σ : Type} (body1 body2 : Nat → σ → Except Error σ) (count : Nat) :
    ∀ (start : Nat) (s : σ),
      (∀ i, start ≤ i → i < start + count → ∀ t, body1 i t = body2 i t) →
      forLoop body1 count start s = forLoop body2 count start s := by
  induction count with
  | zero => intro start s _; rfl
  | succ count ih =>
    intro start s h
    simp only [forLoop]
    rw [h start (le_refl _) (by omega) s]
    cases body2 start s with
    | error e => rfl
    | ok t =>
      rw [bind_ok, bind_ok]
      exact ih (start + 1) t (fun i h1 h2 u => h i (by omega) (by omega) u)

theorem createAdaptorPointStepWith_eq (read : List JSValue → Nat → Except Error JSValue)
    (hread : ∀ arr i, i < arr.length → read arr i = Except.ok (index arr i))
    (C : CurveOps) (a b c : List JSValue) (i : Nat) (ha : i < a.length) (hb : i < b.length)
    (hc : i < c.length) (acc : Option C.Point) :
    createAdaptorPointStepWith read C a b c i acc = createAdaptorPointStep C a b c i acc := by
  unfold createAdaptorPointStepWith
  rw [hread a i ha, hread b i hb, hread c i hc]
  rfl

theorem createAdaptorSecretStepWith_eq (read : List JSValue → Nat → Except Error JSValue)
    (hread : ∀ arr i, i < arr.length → read arr i = Except.ok (index arr i))
    (C : CurveOps) (a b c : List JSValue) (i : Nat) (ha : i < a.length) (hb : i < b.length)
    (hc : i < c.length) (acc : Option Int) :
    createAdaptorSecretStepWith read C a b c i acc = createAdaptorSecretStep C a b c i acc := by
  unfold createAdaptorSecretStepWith
  rw [hread a i ha, hread b i hb, hread c i hc]
  rfl

theorem combineSecretsStepWith_eq (read : List JSValue → Nat → Except Error JSValue)
    (hread : ∀ arr i, i < arr.length → read arr i = Except.ok (index arr i))
    (n : Int) (a : List JSValue) (i : Nat) (ha : i < a.length) (s : Int) :
    combineSecretsStepWith read n a i s = combineSecretsStep n a i s := by
  unfold combineSecretsStepWith
  rw [hread a i ha]
  rfl

/-! ## Claims on `createAdaptorSecret` and `createAdaptorPoint` -/

theorem signers_of_check (n : Int) (ss : List Signer)
    (h : checkCreateAdaptorSecretParams n (privKeysOf ss) (messagesOf ss) (kValuesOf ss)
      = Except.ok ()) : ss ≠ [] ∧ ∀ s ∈ ss, s.Valid n := by
  rw [checkCreateAdaptorSecretParams_iff] at h
  obtain ⟨hne, _, _, hp, hm, hk, _⟩ := h
  refine ⟨by simpa [privKeysOf] using hne, ?_⟩
  intro s hs
  obtain ⟨k, hk1, hk2⟩ := hp _ (List.mem_map.2 ⟨s, hs, rfl⟩)
  obtain ⟨b, hb1, hb2⟩ := hm _ (List.mem_map.2 ⟨s, hs, rfl⟩)
  obtain ⟨k2, hk3, hk4⟩ := hk _ (List.mem_map.2 ⟨s, hs, rfl⟩)
  cases hk1; cases hb1; cases hk3
  exact ⟨hk2, hb2, hk4⟩

theorem inputs_of_check (ps : List PointInput)
    (h : checkCreateAdaptorPointParams (pubKeysIn ps) (messagesIn ps) (rValuesIn ps)
      = Except.ok ()) : ps ≠ [] ∧ ∀ p ∈ ps, p.Valid := by
  rw [checkCreateAdaptorPointParams_iff] at h
  obtain ⟨hne, _, _, hp, hm, hr, _⟩ := h
  refine ⟨by simpa [pubKeysIn] using hne, ?_⟩
  intro p hpm
  obtain ⟨b1, h1, h2⟩ := hp _ (List.mem_map.2 ⟨p, hpm, rfl⟩)
  obtain ⟨b2, h3, h4⟩ := hm _ (List.mem_map.2 ⟨p, hpm, rfl⟩)
  obtain ⟨b3, h5, h6⟩ := hr _ (List.mem_map.2 ⟨p, hpm, rfl⟩)
  cases h1; cases h3; cases h5
  exact ⟨h2, h4, h6⟩

theorem sum_emod_map (n : Int) (f : Signer → Int) (ss : List Signer) :
    (ss.map (fun s => f s % n)).sum % n = (ss.map f).sum % n := by
  induction ss with
  | nil => simp
  | cons s rest ih =>
    simp only [List.map_cons, List.sum_cons]
    rw [Int.add_emod, ih, Int.emod_emod_of_dvd _ (dvd_refl n), ← Int.add_emod]

theorem signatureScalar_range (C : CurveOps) (hC : CurveLaws C) (s : Signer) :
    0 ≤ signatureScalar C s ∧ signatureScalar C s < C.n := by
  have := hC.n_pos
  exact ⟨Int.emod_nonneg _ (by omega), Int.emod_lt_of_pos _ (by omega)⟩

/-- Combining the signature scalars of the participants gives the reduced sum of their
`k' + e * d`. -/
theorem combineSecrets_scalars (C : CurveOps) (hC : CurveLaws C) (ss : List Signer)
    (hne : ss ≠ []) :
    combineSecrets C.n (ss.map (fun s => JSValue.buffer (intToBuffer (signatureScalar C s))))
      = Except.ok (intToBuffer ((ss.map (signatureTerm C)).sum % C.n)) := by
  have hnle := hC.n_le
  have hlen : ∀ s : Signer, (intToBuffer (signatureScalar C s)).length = 32 := fun s =>
    length_intToBuffer _ (signatureScalar_range C hC s).1
      (lt_of_lt_of_le (signatureScalar_range C hC s).2 hnle)
  have hrt : ∀ s : Signer, fromBuffer (intToBuffer (signatureScalar C s)) = signatureScalar C s :=
    fun s => fromBuffer_intToBuffer _ (signatureScalar_range C hC s).1
  cases ss with
  | nil => exact absurd rfl hne
  | cons a rest =>
    have h := combineSecrets_buffers C.n (intToBuffer (signatureScalar C a))
      (rest.map (fun s => intToBuffer (signatureScalar C s)))
      (by
        intro b hb
        rcases List.mem_cons.1 hb with hb | hb
        · rw [hb]; exact hlen a
        · obtain ⟨s, _, rfl⟩ := List.mem_map.1 hb
          exact hlen s)
    simp only [List.map_cons, List.map_map] at h ⊢
    rw [show (fun s => JSValue.buffer (intToBuffer (signatureScalar C s)))
        = JSValue.buffer ∘ (fun s => intToBuffer (signatureScalar C s)) from rfl, h]
    by_cases hr : rest = []
    · subst hr
      have h1 := hrt a
      simp only [signatureScalar] at h1
      simp [signatureScalar, h1]
    · have hr2 : List.map (fun s => intToBuffer (signatureScalar C s)) rest ≠ [] := by
        simpa using hr
      rw [if_neg hr2]
      have hm : List.map (fromBuffer ∘ fun s => intToBuffer (signatureScalar C s)) rest
          = List.map (fun s => signatureTerm C s % C.n) rest :=
        List.map_congr_left (fun s _ => hrt s)
      rw [hm, hrt a]
      have := sum_emod_map C.n (signatureTerm C) (a :: rest)
      simp only [List.map_cons, List.sum_cons] at this
      rw [show signatureScalar C a = signatureTerm C a % C.n from rfl, List.sum_cons,
        List.sum_cons, this]

/-! ## The small curve satisfies the laws -/

theorem toy_x_range : ∀ P : ZMod 31, ∀ v ∈ (toyCoords P).map Prod.fst, 0 ≤ v ∧ v < 43 := by
  decide

theorem toy_y_neg : ∀ P : ZMod 31, ∀ v ∈ (toyCoords P).map Prod.snd,
    ∀ w ∈ (toyCoords (-P)).map Prod.snd, (v % 2 = 0 ↔ ¬ w % 2 = 0) := by decide

set_option maxRecDepth 100000 in
theorem toy_lift_x : ∀ P : ZMod 31, ∀ v ∈ (toyCoords P).map Prod.fst,
    ∀ w ∈ (toyCoords P).map Prod.snd,
      toyLift (intToBuffer v) = Except.ok (if w % 2 = 0 then P else -P) := by decide

theorem toy_order_min : ∀ k : Fin 31, 0 < k.val → k.val • (1 : ZMod 31) ≠ 0 := by decide

theorem toy_x_none : ∀ P : ZMod 31, (toyCoords P).map Prod.fst = none ↔ P = 0 := by decide

theorem toy_y_none : ∀ P : ZMod 31, (toyCoords P).map Prod.snd = none ↔ P = 0 := by decide

theorem toy_x_neg : ∀ P : ZMod 31,
    (toyCoords (-P)).map Prod.fst = (toyCoords P).map Prod.fst := by decide

theorem toyCurve_laws : CurveLaws toyCurve where
  n_pos := by decide
  n_le := by norm_num [toyCurve]
  multiply_eq := fun _ _ _ => rfl
  order_smul := by
    show (31 : Int).toNat • (1 : ZMod 31) = 0
    decide
  order_min := by
    intro k h0 hk
    have hk2 : k < 31 := by
      have : (k : Int) < 31 := hk
      omega
    exact toy_order_min ⟨k, hk2⟩ h0
  x_none := toy_x_none
  y_none := toy_y_none
  x_range := by
    intro P v h
    have := toy_x_range P v h
    constructor
    · exact this.1
    · have h2 : (43 : Int) < 2 ^ 256 := by norm_num
      omega
  x_neg := toy_x_neg
  y_neg := fun P v w hv hw => toy_y_neg P v hv w hw
  lift_x := fun P v w hv hw => toy_lift_x P v hv w hw

/-! ## Claims on `combineSecrets` -/

/-- C5: on the single 32-byte secret `ff..ff`, a value above the order of secp256k1,
`combineSecrets` returns the secret as it is, which is not the 32-byte encoding of the
value reduced modulo `n`: the reduction of line 73 is never reached for one secret. -/
theorem combineSecrets_single_unreduced :
    combineSecrets secp256k1_n [JSValue.buffer (List.replicate 32 255)]
        = Except.ok (List.replicate 32 255) ∧
      combineSecrets secp256k1_n [JSValue.buffer (List.replicate 32 255)]
        ≠ Except.ok (intToBuffer (fromBuffer (List.replicate 32 255) % secp256k1_n)) := by
  decide

/-- C6: for 32-byte buffers `a`, `b`, `c`, `combineSecrets([a, b])` returns a buffer `ab`
and `combineSecrets([a, b, c])` and `combineSecrets([ab, c])` return the same buffer. -/
theorem combineSecrets_nested (n : Int) (hn0 : 0 < n) (hn : n ≤ 2 ^ 256) (a b c : Buffer)
    (ha : a.length = 32) (hb : b.length = 32) (hc : c.length = 32) :
    ∃ ab r, combineSecrets n [JSValue.buffer a, JSValue.buffer b] = Except.ok ab ∧
      combineSecrets n [JSValue.buffer a, JSValue.buffer b, JSValue.buffer c] = Except.ok r ∧
      combineSecrets n [JSValue.buffer ab, JSValue.buffer c] = Except.ok r := by
  have h2 := combineSecrets_buffers n a [b] (by simp [ha, hb])
  have h3 := combineSecrets_buffers n a [b, c] (by simp [ha, hb, hc])
  have hab0 : 0 ≤ (fromBuffer a + fromBuffer b) % n := Int.emod_nonneg _ (by omega)
  have hablt : (fromBuffer a + fromBuffer b) % n < n := Int.emod_lt_of_pos _ hn0
  have habl : (intToBuffer ((fromBuffer a + fromBuffer b) % n)).length = 32 :=
    length_intToBuffer _ hab0 (by omega)
  have h2n := combineSecrets_buffers n (intToBuffer ((fromBuffer a + fromBuffer b) % n)) [c]
    (by simp [habl, hc])
  simp only [List.map_cons, List.map_nil, List.cons_ne_nil, if_false, List.sum_cons,
    List.sum_nil, add_zero, reduceCtorEq] at h2 h3 h2n
  refine ⟨_, _, h2, h3, ?_⟩
  rw [h2n, fromBuffer_intToBuffer _ hab0, Int.emod_add_emod, add_assoc]

theorem combineSecrets_nested_witness :
    ∃ ab r, combineSecrets secp256k1_n
        [JSValue.buffer (List.replicate 32 255), JSValue.buffer (List.replicate 32 254)]
          = Except.ok ab ∧
      combineSecrets secp256k1_n [JSValue.buffer (List.replicate 32 255),
        JSValue.buffer (List.replicate 32 254), JSValue.buffer (List.replicate 32 1)]
          = Except.ok r ∧
      combineSecrets secp256k1_n [JSValue.buffer ab, JSValue.buffer (List.replicate 32 1)]
          = Except.ok r :=
  combineSecrets_nested secp256k1_n (by decide) (by norm_num [secp256k1_n]) (List.replicate 32 255)
    (List.replicate 32 254) (List.replicate 32 1) (by decide) (by decide) (by decide)

/-- C7: for a non-empty list of 32-byte buffers and any permutation of it,
`combineSecrets` returns one and the same 32-byte buffer for both. -/
theorem combineSecrets_perm (n : Int) (hn0 : 0 < n) (hn : n ≤ 2 ^ 256) (bs bs2 : List Buffer)
    (hne : bs ≠ []) (hlen : ∀ b ∈ bs, b.length = 32) (hp : bs.Perm bs2) :
    ∃ r, r.length = 32 ∧ combineSecrets n (bs.map JSValue.buffer) = Except.ok r ∧
      combineSecrets n (bs2.map JSValue.buffer) = Except.ok r := by
  have hlen2 : ∀ b ∈ bs2, b.length = 32 := fun b hb => hlen b (hp.mem_iff.2 hb)
  cases bs with
  | nil => exact absurd rfl hne
  | cons a rest =>
    cases bs2 with
    | nil => exact absurd hp.length_eq (by simp)
    | cons a2 rest2 =>
      rw [combineSecrets_buffers n a rest hlen, combineSecrets_buffers n a2 rest2 hlen2]
      have hl : rest.length = rest2.length := by simpa using hp.length_eq
      by_cases hr : rest = []
      · subst hr
        have hr2 : rest2 = [] := List.length_eq_zero.1 hl.symm
        subst hr2
        have haa : a = a2 := by simpa using hp
        subst haa
        refine ⟨intToBuffer (fromBuffer a), ?_, by simp, by simp⟩
        rw [intToBuffer_fromBuffer a (hlen a (by simp))]
        exact hlen a (by simp)
      · have hr2 : rest2 ≠ [] := by
          intro h; rw [h] at hl; exact hr (List.length_eq_zero.1 hl)
        have hs : ((a :: rest).map fromBuffer).sum = ((a2 :: rest2).map fromBuffer).sum :=
          (hp.map fromBuffer).sum_eq
        refine ⟨intToBuffer (((a :: rest).map fromBuffer).sum % n), ?_, by simp [hr],
          by rw [if_neg hr2, hs]⟩
        exact length_intToBuffer _ (Int.emod_nonneg _ (by omega))
          (lt_of_lt_of_le (Int.emod_lt_of_pos _ hn0) hn)

theorem combineSecrets_perm_witness :
    ∃ r, r.length = 32 ∧
      combineSecrets secp256k1_n
        ([List.replicate 32 255, List.replicate 32 7, List.replicate 32 1].map JSValue.buffer)
          = Except.ok r ∧
      combineSecrets secp256k1_n
        ([List.replicate 32 1, List.replicate 32 255, List.replicate 32 7].map JSValue.buffer)
          = Except.ok r :=
  combineSecrets_perm secp256k1_n (by decide) (by norm_num [secp256k1_n])
    [List.replicate 32 255, List.replicate 32 7, List.replicate 32 1]
    [List.replicate 32 1, List.replicate 32 255, List.replicate 32 7]
    (by decide) (by decide) (by decide)

/-- C8: for two or more 32-byte buffers, `combineSecrets` returns the 32-byte big-endian
encoding of the sum of the decoded values modulo `n`; the decoded result is that residue
and lies in `[0, n-1]`; for two secrets it is `intToBuffer((s1 + s2) mod n)`. -/
theorem combineSecrets_sum (n : Int) (hn0 : 0 < n) (hn : n ≤ 2 ^ 256) (bs : List Buffer)
    (h2 : 2 ≤ bs.length) (hlen : ∀ b ∈ bs, b.length = 32) :
    ∃ r, combineSecrets n (bs.map JSValue.buffer) = Except.ok r ∧
      r = intToBuffer ((bs.map fromBuffer).sum % n) ∧ r.length = 32 ∧
      fromBuffer r = (bs.map fromBuffer).sum % n ∧ 0 ≤ fromBuffer r ∧ fromBuffer r ≤ n - 1 ∧
      ∀ s1 s2, bs = [s1, s2] → r = intToBuffer ((fromBuffer s1 + fromBuffer s2) % n) := by
  cases bs with
  | nil => simp at h2
  | cons a rest =>
    have hr : rest ≠ [] := by
      intro h; subst h; simp at h2
    have h0 : 0 ≤ ((a :: rest).map fromBuffer).sum % n := Int.emod_nonneg _ (by omega)
    have h1 : ((a :: rest).map fromBuffer).sum % n < n := Int.emod_lt_of_pos _ hn0
    refine ⟨_, combineSecrets_buffers n a rest hlen, by simp [hr], ?_, ?_, ?_, ?_, ?_⟩
    · simp only [hr, if_false]
      exact length_intToBuffer _ h0 (by omega)
    · simp only [hr, if_false]
      exact fromBuffer_intToBuffer _ h0
    · simp only [hr, if_false]
      rw [fromBuffer_intToBuffer _ h0]; exact h0
    · simp only [hr, if_false]
      rw [fromBuffer_intToBuffer _ h0]; omega
    · intro s1 s2 h
      simp only [hr, if_false]
      rw [h]
      simp

theorem combineSecrets_sum_witness :
    ∃ r, combineSecrets secp256k1_n
        ([List.replicate 32 255, List.replicate 32 254].map JSValue.buffer) = Except.ok r ∧
      r = intToBuffer (([List.replicate 32 255, List.replicate 32 254].map fromBuffer).sum
        % secp256k1_n) ∧ r.length = 32 ∧
      fromBuffer r = ([List.replicate 32 255, List.replicate 32 254].map fromBuffer).sum
        % secp256k1_n ∧ 0 ≤ fromBuffer r ∧ fromBuffer r ≤ secp256k1_n - 1 ∧
      ∀ s1 s2, [List.replicate 32 255, List.replicate 32 254] = [s1, s2] →
        r = intToBuffer ((fromBuffer s1 + fromBuffer s2) % secp256k1_n) :=
  combineSecrets_sum secp256k1_n (by decide) (by norm_num [secp256k1_n])
    [List.replicate 32 255, List.replicate 32 254] (by decide) (by decide)

/-! ## Claims on `createAdaptorPoint`, `createAdaptorSecret` and the validation gate -/

/-- C1: for participants that pass the validation of `createAdaptorSecret`, with every
`pubKey` the 32-byte x-coordinate of `G * privKey` and every `rValue` the 32-byte
x-coordinate of `G * k`, `createAdaptorSecret` returns a secret and `createAdaptorPoint`
gives the same outcome as `intToBuffer((G * bufferToInt(secret)).affineX)` (the expression
of the test); that outcome is a 32-byte buffer unless the secret is zero, where both
computations stop at the point at infinity. -/
theorem createAdaptorPoint_eq_secret_times_G (C : CurveOps) (hC : CurveLaws C)
    (ss : List Signer)
    (hchk : checkCreateAdaptorSecretParams C.n (privKeysOf ss) (messagesOf ss) (kValuesOf ss)
      = Except.ok ()) :
    ∃ secret, createAdaptorSecret C (privKeysOf ss) (messagesOf ss) (kValuesOf ss)
        = Except.ok secret ∧
      createAdaptorPoint C (pubKeysOf C ss) (messagesOf ss) (rValuesOf C ss)
        = encodeX C (C.multiply C.G (fromBuffer secret)) ∧
      (fromBuffer secret ≠ 0 → ∃ pt, pt.length = 32 ∧
        createAdaptorPoint C (pubKeysOf C ss) (messagesOf ss) (rValuesOf C ss)
          = Except.ok pt) := by
  obtain ⟨hne, hv⟩ := signers_of_check C.n ss hchk
  have hn := hC.n_pos
  have h0 : 0 ≤ (ss.map (signatureTerm C)).sum % C.n := Int.emod_nonneg _ (by omega)
  have h1 : (ss.map (signatureTerm C)).sum % C.n < C.n := Int.emod_lt_of_pos _ (by omega)
  refine ⟨_, createAdaptorSecret_signers C hC ss hne hv, ?_, ?_⟩
  · rw [fromBuffer_intToBuffer _ h0]
    exact createAdaptorPoint_matched C hC ss hne hv
  · rw [fromBuffer_intToBuffer _ h0]
    intro hnz
    obtain ⟨x, hx, hax⟩ := affineX_ok C hC _
      (smul_G_ne_zero C hC ((ss.map (signatureTerm C)).sum % C.n) (by omega) (by omega))
    have hr := hC.x_range _ x hx
    refine ⟨intToBuffer x, length_intToBuffer _ hr.1 hr.2, ?_⟩
    rw [createAdaptorPoint_matched C hC ss hne hv, encodeX, hax]
    rfl

set_option maxRecDepth 100000 in
theorem createAdaptorPoint_eq_secret_times_G_witness :
    ∃ secret, createAdaptorSecret toyCurve
        (privKeysOf [⟨5, List.replicate 32 3, 7⟩, ⟨30, List.replicate 32 9, 1⟩])
        (messagesOf [⟨5, List.replicate 32 3, 7⟩, ⟨30, List.replicate 32 9, 1⟩])
        (kValuesOf [⟨5, List.replicate 32 3, 7⟩, ⟨30, List.replicate 32 9, 1⟩])
        = Except.ok secret ∧
      createAdaptorPoint toyCurve
        (pubKeysOf toyCurve [⟨5, List.replicate 32 3, 7⟩, ⟨30, List.replicate 32 9, 1⟩])
        (messagesOf [⟨5, List.replicate 32 3, 7⟩, ⟨30, List.replicate 32 9, 1⟩])
        (rValuesOf toyCurve [⟨5, List.replicate 32 3, 7⟩, ⟨30, List.replicate 32 9, 1⟩])
        = encodeX toyCurve (toyCurve.multiply toyCurve.G (fromBuffer secret)) ∧
      (fromBuffer secret ≠ 0 → ∃ pt, pt.length = 32 ∧
        createAdaptorPoint toyCurve
          (pubKeysOf toyCurve [⟨5, List.replicate 32 3, 7⟩, ⟨30, List.replicate 32 9, 1⟩])
          (messagesOf [⟨5, List.replicate 32 3, 7⟩, ⟨30, List.replicate 32 9, 1⟩])
          (rValuesOf toyCurve [⟨5, List.replicate 32 3, 7⟩, ⟨30, List.replicate 32 9, 1⟩])
          = Except.ok pt) :=
  createAdaptorPoint_eq_secret_times_G toyCurve toyCurve_laws
    [⟨5, List.replicate 32 3, 7⟩, ⟨30, List.replicate 32 9, 1⟩] (by decide)

/-- C2: for a private key and an ephemeral scalar in `[1, n-1]` and a 32-byte message,
`createAdaptorSecret([privKey], [m], [k])` returns the 32-byte big-endian encoding of
`(k' + e * d) mod n`, with `d` and `k'` the even-y-normalised scalars and
`e = challengeHash(x(G*k) || x(G*privKey) || m) mod n`. -/
theorem createAdaptorSecret_single (C : CurveOps) (hC : CurveLaws C) (privKey k : Int)
    (m : Buffer) (hd : 1 ≤ privKey ∧ privKey ≤ C.n - 1) (hk : 1 ≤ k ∧ k ≤ C.n - 1)
    (hm : m.length = 32) :
    createAdaptorSecret C [JSValue.bigInteger privKey] [JSValue.buffer m] [JSValue.bigInteger k]
        = Except.ok (intToBuffer
            (((if hasEvenY C k then k else C.n - k)
              + fromBuffer (C.taggedHash "BIP0340/challenge"
                  (xOnly C k ++ xOnly C privKey ++ m)) % C.n
                * (if hasEvenY C privKey then privKey else C.n - privKey)) % C.n)) ∧
      (intToBuffer
            (((if hasEvenY C k then k else C.n - k)
              + fromBuffer (C.taggedHash "BIP0340/challenge"
                  (xOnly C k ++ xOnly C privKey ++ m)) % C.n
                * (if hasEvenY C privKey then privKey else C.n - privKey)) % C.n)).length
        = 32 := by
  have h := createAdaptorSecret_signers C hC [⟨privKey, m, k⟩] (by simp)
    (by
      intro s hs
      rw [List.mem_singleton] at hs
      subst hs
      exact ⟨hd, hm, hk⟩)
  have hn := hC.n_pos
  have hnle := hC.n_le
  simp only [privKeysOf, messagesOf, kValuesOf, List.map_cons, List.map_nil, List.sum_cons,
    List.sum_nil, add_zero, signatureTerm, evenScalar, challenge] at h
  refine ⟨h, ?_⟩
  exact length_intToBuffer _ (Int.emod_nonneg _ (by omega))
    (lt_of_lt_of_le (Int.emod_lt_of_pos _ (by omega)) hnle)

set_option maxRecDepth 100000 in
theorem createAdaptorSecret_single_witness :
    createAdaptorSecret toyCurve [JSValue.bigInteger 5] [JSValue.buffer (List.replicate 32 3)]
        [JSValue.bigInteger 7] = Except.ok (intToBuffer 7) :=
  (createAdaptorSecret_single toyCurve toyCurve_laws 5 7 (List.replicate 32 3)
    (by decide) (by decide) (by decide)).1.trans (by decide)

/-- C3: for participants that pass the validation, every participant alone gives a secret
`s_i = createAdaptorSecret([privKey_i], [message_i], [k_i])`, and `createAdaptorSecret` on
all participants returns what `combineSecrets([s_1, ..., s_m])` returns. -/
theorem createAdaptorSecret_eq_combineSecrets (C : CurveOps) (hC : CurveLaws C)
    (ss : List Signer)
    (hchk : checkCreateAdaptorSecretParams C.n (privKeysOf ss) (messagesOf ss) (kValuesOf ss)
      = Except.ok ()) :
    ∃ (secrets : List Buffer) (r : Buffer),
      List.Forall₂ (fun s b => createAdaptorSecret C [JSValue.bigInteger s.privKey]
        [JSValue.buffer s.message] [JSValue.bigInteger s.k] = Except.ok b) ss secrets ∧
      createAdaptorSecret C (privKeysOf ss) (messagesOf ss) (kValuesOf ss) = Except.ok r ∧
      combineSecrets C.n (secrets.map JSValue.buffer) = Except.ok r := by
  obtain ⟨hne, hv⟩ := signers_of_check C.n ss hchk
  refine ⟨ss.map (fun s => intToBuffer (signatureScalar C s)), _, ?_,
    createAdaptorSecret_signers C hC ss hne hv, ?_⟩
  · rw [List.forall₂_map_right_iff, List.forall₂_same]
    intro s hs
    have h := createAdaptorSecret_signers C hC [s] (by simp)
      (by
        intro s2 hs2
        rw [List.mem_singleton] at hs2
        subst hs2
        exact hv _ hs)
    simpa [privKeysOf, messagesOf, kValuesOf, signatureScalar] using h
  · rw [List.map_map]
    exact combineSecrets_scalars C hC ss hne

set_option maxRecDepth 100000 in
theorem createAdaptorSecret_eq_combineSecrets_witness :
    ∃ (secrets : List Buffer) (r : Buffer),
      List.Forall₂ (fun (s : Signer) b => createAdaptorSecret toyCurve
        [JSValue.bigInteger s.privKey] [JSValue.buffer s.message] [JSValue.bigInteger s.k]
          = Except.ok b)
        [⟨5, List.replicate 32 3, 7⟩, ⟨30, List.replicate 32 9, 1⟩, ⟨12, List.replicate 32 0, 30⟩]
        secrets ∧
      createAdaptorSecret toyCurve
        (privKeysOf
          [⟨5, List.replicate 32 3, 7⟩, ⟨30, List.replicate 32 9, 1⟩, ⟨12, List.replicate 32 0, 30⟩])
        (messagesOf
          [⟨5, List.replicate 32 3, 7⟩, ⟨30, List.replicate 32 9, 1⟩, ⟨12, List.replicate 32 0, 30⟩])
        (kValuesOf
          [⟨5, List.replicate 32 3, 7⟩, ⟨30, List.replicate 32 9, 1⟩, ⟨12, List.replicate 32 0, 30⟩])
        = Except.ok r ∧
      combineSecrets toyCurve.n (secrets.map JSValue.buffer) = Except.ok r :=
  createAdaptorSecret_eq_combineSecrets toyCurve toyCurve_laws
    [⟨5, List.replicate 32 3, 7⟩, ⟨30, List.replicate 32 9, 1⟩, ⟨12, List.replicate 32 0, 30⟩]
    (by decide)

/-- C4: for participants that pass the validation, with matching `pubKeys` and `rValues`,
`combineSecrets` of the 32-byte signature scalars `(k' + e * d) mod n` returns a buffer
`combined`, and `createAdaptorPoint` gives the same outcome as
`intToBuffer((G * bufferToInt(combined)).affineX)`; for one participant this is the encoded
x-coordinate of `G * s` with `s` the signature scalar. -/
theorem createAdaptorPoint_eq_combined_times_G (C : CurveOps) (hC : CurveLaws C)
    (ss : List Signer)
    (hchk : checkCreateAdaptorSecretParams C.n (privKeysOf ss) (messagesOf ss) (kValuesOf ss)
      = Except.ok ()) :
    ∃ combined,
      combineSecrets C.n (ss.map (fun s => JSValue.buffer (intToBuffer (signatureScalar C s))))
        = Except.ok combined ∧
      createAdaptorPoint C (pubKeysOf C ss) (messagesOf ss) (rValuesOf C ss)
        = encodeX C (C.multiply C.G (fromBuffer combined)) ∧
      ∀ s, ss = [s] →
        createAdaptorPoint C [JSValue.buffer (xOnly C s.privKey)] [JSValue.buffer s.message]
            [JSValue.buffer (xOnly C s.k)]
          = encodeX C (C.multiply C.G (signatureScalar C s)) := by
  obtain ⟨hne, hv⟩ := signers_of_check C.n ss hchk
  have hn := hC.n_pos
  have h0 : 0 ≤ (ss.map (signatureTerm C)).sum % C.n := Int.emod_nonneg _ (by omega)
  refine ⟨_, combineSecrets_scalars C hC ss hne, ?_, ?_⟩
  · rw [fromBuffer_intToBuffer _ h0]
    exact createAdaptorPoint_matched C hC ss hne hv
  · intro s hs
    subst hs
    have h := createAdaptorPoint_matched C hC [s] hne hv
    simpa [pubKeysOf, messagesOf, rValuesOf, signatureScalar] using h

set_option maxRecDepth 100000 in
theorem createAdaptorPoint_eq_combined_times_G_witness :
    ∃ combined,
      combineSecrets toyCurve.n
        (([⟨5, List.replicate 32 3, 7⟩, ⟨30, List.replicate 32 9, 1⟩] : List Signer).map
          (fun s => JSValue.buffer (intToBuffer (signatureScalar toyCurve s))))
        = Except.ok combined ∧
      createAdaptorPoint toyCurve
        (pubKeysOf toyCurve [⟨5, List.replicate 32 3, 7⟩, ⟨30, List.replicate 32 9, 1⟩])
        (messagesOf [⟨5, List.replicate 32 3, 7⟩, ⟨30, List.replicate 32 9, 1⟩])
        (rValuesOf toyCurve [⟨5, List.replicate 32 3, 7⟩, ⟨30, List.replicate 32 9, 1⟩])
        = encodeX toyCurve (toyCurve.multiply toyCurve.G (fromBuffer combined)) ∧
      ∀ s, ([⟨5, List.replicate 32 3, 7⟩, ⟨30, List.replicate 32 9, 1⟩] : List Signer) = [s] →
        createAdaptorPoint toyCurve [JSValue.buffer (xOnly toyCurve s.privKey)]
            [JSValue.buffer s.message] [JSValue.buffer (xOnly toyCurve s.k)]
          = encodeX toyCurve (toyCurve.multiply toyCurve.G (signatureScalar toyCurve s)) :=
  createAdaptorPoint_eq_combined_times_G toyCurve toyCurve_laws
    [⟨5, List.replicate 32 3, 7⟩, ⟨30, List.replicate 32 9, 1⟩] (by decide)

/-- C9: for point-side inputs that pass the validation and any permutation applied to the
three arrays together, `createAdaptorPoint` returns the same buffer for both, or fails for
both. -/
theorem createAdaptorPoint_perm (C : CurveOps) (ps ps2 : List PointInput)
    (hchk : checkCreateAdaptorPointParams (pubKeysIn ps) (messagesIn ps) (rValuesIn ps)
      = Except.ok ())
    (hp : ps.Perm ps2) :
    (createAdaptorPoint C (pubKeysIn ps) (messagesIn ps) (rValuesIn ps)).toOption
      = (createAdaptorPoint C (pubKeysIn ps2) (messagesIn ps2) (rValuesIn ps2)).toOption := by
  obtain ⟨hne, hv⟩ := inputs_of_check ps hchk
  have hne2 : ps2 ≠ [] := by
    intro h; subst h; exact hne hp.eq_nil
  have hv2 : ∀ p ∈ ps2, p.Valid := fun p h => hv p (hp.mem_iff.2 h)
  by_cases hex : ∃ p ∈ ps, ∃ e, pointContribution C p = Except.error e
  · obtain ⟨e1, he1⟩ := createAdaptorPoint_error C ps hne hv hex
    obtain ⟨p, hpm, e, he⟩ := hex
    obtain ⟨e2, he2⟩ := createAdaptorPoint_error C ps2 hne2 hv2 ⟨p, hp.mem_iff.1 hpm, e, he⟩
    rw [he1, he2]
    rfl
  · have ht : ∀ p ∈ ps, pointContribution C p = Except.ok (contribution C p) := by
      intro p hpm
      cases hc : pointContribution C p with
      | error e => exact absurd ⟨p, hpm, e, hc⟩ hex
      | ok t => simp [contribution, hc]
    rw [createAdaptorPoint_ok C ps hne hv (contribution C) ht,
      createAdaptorPoint_ok C ps2 hne2 hv2 (contribution C)
        (fun p h => ht p (hp.mem_iff.2 h)),
      (hp.map (contribution C)).sum_eq]

set_option maxRecDepth 100000 in
theorem createAdaptorPoint_perm_witness :
    (createAdaptorPoint toyCurve
        (pubKeysIn [⟨intToBuffer 12, List.replicate 32 3, intToBuffer 37⟩,
          ⟨intToBuffer 2, List.replicate 32 9, intToBuffer 7⟩,
          ⟨intToBuffer 40, List.replicate 32 1, intToBuffer 21⟩])
        (messagesIn [⟨intToBuffer 12, List.replicate 32 3, intToBuffer 37⟩,
          ⟨intToBuffer 2, List.replicate 32 9, intToBuffer 7⟩,
          ⟨intToBuffer 40, List.replicate 32 1, intToBuffer 21⟩])
        (rValuesIn [⟨intToBuffer 12, List.replicate 32 3, intToBuffer 37⟩,
          ⟨intToBuffer 2, List.replicate 32 9, intToBuffer 7⟩,
          ⟨intToBuffer 40, List.replicate 32 1, intToBuffer 21⟩])).toOption
      = (createAdaptorPoint toyCurve
        (pubKeysIn [⟨intToBuffer 40, List.replicate 32 1, intToBuffer 21⟩,
          ⟨intToBuffer 12, List.replicate 32 3, intToBuffer 37⟩,
          ⟨intToBuffer 2, List.replicate 32 9, intToBuffer 7⟩])
        (messagesIn [⟨intToBuffer 40, List.replicate 32 1, intToBuffer 21⟩,
          ⟨intToBuffer 12, List.replicate 32 3, intToBuffer 37⟩,
          ⟨intToBuffer 2, List.replicate 32 9, intToBuffer 7⟩])
        (rValuesIn [⟨intToBuffer 40, List.replicate 32 1, intToBuffer 21⟩,
          ⟨intToBuffer 12, List.replicate 32 3, intToBuffer 37⟩,
          ⟨intToBuffer 2, List.replicate 32 9, intToBuffer 7⟩])).toOption :=
  createAdaptorPoint_perm toyCurve
    [⟨intToBuffer 12, List.replicate 32 3, intToBuffer 37⟩,
      ⟨intToBuffer 2, List.replicate 32 9, intToBuffer 7⟩,
      ⟨intToBuffer 40, List.replicate 32 1, intToBuffer 21⟩]
    [⟨intToBuffer 40, List.replicate 32 1, intToBuffer 21⟩,
      ⟨intToBuffer 12, List.replicate 32 3, intToBuffer 37⟩,
      ⟨intToBuffer 2, List.replicate 32 9, intToBuffer 7⟩]
    (by decide) (by decide)

/-- C10: `checkCreateAdaptorSecretParams` succeeds if and only if the three arrays are
non-empty, every private key and every k value is a big integer in `[1, n-1]`, every
message is a buffer of 32 bytes and the three lengths are equal; in every other case
`createAdaptorSecret` throws the error of the check and returns nothing. -/
theorem checkCreateAdaptorSecretParams_gate (C : CurveOps)
    (privKeys messages kValues : List JSValue) :
    (checkCreateAdaptorSecretParams C.n privKeys messages kValues = Except.ok () ↔
      privKeys ≠ [] ∧ messages ≠ [] ∧ kValues ≠ [] ∧
      (∀ v ∈ privKeys, ∃ k, v = JSValue.bigInteger k ∧ 1 ≤ k ∧ k ≤ C.n - 1) ∧
      (∀ v ∈ messages, ∃ b, v = JSValue.buffer b ∧ b.length = 32) ∧
      (∀ v ∈ kValues, ∃ k, v = JSValue.bigInteger k ∧ 1 ≤ k ∧ k ≤ C.n - 1) ∧
      privKeys.length = messages.length ∧ messages.length = kValues.length) ∧
    (checkCreateAdaptorSecretParams C.n privKeys messages kValues ≠ Except.ok () →
      ∃ e, checkCreateAdaptorSecretParams C.n privKeys messages kValues = Except.error e ∧
        createAdaptorSecret C privKeys messages kValues = Except.error e) := by
  refine ⟨checkCreateAdaptorSecretParams_iff C.n privKeys messages kValues, ?_⟩
  intro h
  cases hc : checkCreateAdaptorSecretParams C.n privKeys messages kValues with
  | ok u => exact absurd hc h
  | error e => exact ⟨e, rfl, createAdaptorSecret_of_check_error C _ _ _ e hc⟩

set_option maxRecDepth 100000 in
theorem checkCreateAdaptorSecretParams_gate_witness :
    ∃ e, checkCreateAdaptorSecretParams toyCurve.n [JSValue.bigInteger 31]
        [JSValue.buffer (List.replicate 32 3)] [JSValue.bigInteger 7] = Except.error e ∧
      createAdaptorSecret toyCurve [JSValue.bigInteger 31]
        [JSValue.buffer (List.replicate 32 3)] [JSValue.bigInteger 7] = Except.error e :=
  (checkCreateAdaptorSecretParams_gate toyCurve [JSValue.bigInteger 31]
    [JSValue.buffer (List.replicate 32 3)] [JSValue.bigInteger 7]).2 (by decide)

/-- The boundaries of the gate on the small curve (`n = 31`): the scalars 0, `n` and
`n + 1` are rejected, a 31-byte message and unequal lengths are rejected, the scalars 1 and
`n - 1` are accepted. -/
theorem createAdaptorSecret_boundaries :
    createAdaptorSecret toyCurve [JSValue.bigInteger 0] [JSValue.buffer (List.replicate 32 3)]
        [JSValue.bigInteger 7] = Except.error (Error.mustBeInRange "privateKey") ∧
      createAdaptorSecret toyCurve [JSValue.bigInteger 31]
        [JSValue.buffer (List.replicate 32 3)] [JSValue.bigInteger 7]
          = Except.error (Error.mustBeInRange "privateKey") ∧
      createAdaptorSecret toyCurve [JSValue.bigInteger 5]
        [JSValue.buffer (List.replicate 32 3)] [JSValue.bigInteger 32]
          = Except.error (Error.mustBeInRange "kValue") ∧
      createAdaptorSecret toyCurve [JSValue.bigInteger 5]
        [JSValue.buffer (List.replicate 31 3)] [JSValue.bigInteger 7]
          = Except.error (Error.mustBeBytesLong "message" (some 0) 32) ∧
      createAdaptorSecret toyCurve [JSValue.bigInteger 5, JSValue.bigInteger 6]
        [JSValue.buffer (List.replicate 32 3)] [JSValue.bigInteger 7]
          = Except.error Error.sameLength ∧
      checkCreateAdaptorSecretParams toyCurve.n [JSValue.bigInteger 1]
        [JSValue.buffer (List.replicate 32 3)] [JSValue.bigInteger 30] = Except.ok () := by
  set_option maxRecDepth 100000 in decide

/-! ## Claims on validation -/

/-- C11: `checkCreateAdaptorPointParams` succeeds if and only if the three arrays are
non-empty, every element of each is a buffer of 32 bytes and the three lengths are equal;
in every other case `createAdaptorPoint` throws the error of the check, whatever the curve
library and the hash are (none of them is reached), and returns nothing. -/
theorem checkCreateAdaptorPointParams_gate (pubKeys messages rValues : List JSValue) :
    (checkCreateAdaptorPointParams pubKeys messages rValues = Except.ok () ↔
      pubKeys ≠ [] ∧ messages ≠ [] ∧ rValues ≠ [] ∧
      (∀ v ∈ pubKeys, ∃ b, v = JSValue.buffer b ∧ b.length = 32) ∧
      (∀ v ∈ messages, ∃ b, v = JSValue.buffer b ∧ b.length = 32) ∧
      (∀ v ∈ rValues, ∃ b, v = JSValue.buffer b ∧ b.length = 32) ∧
      pubKeys.length = messages.length ∧ messages.length = rValues.length) ∧
    (checkCreateAdaptorPointParams pubKeys messages rValues ≠ Except.ok () →
      ∃ e, checkCreateAdaptorPointParams pubKeys messages rValues = Except.error e ∧
        ∀ C : CurveOps, createAdaptorPoint C pubKeys messages rValues = Except.error e) := by
  refine ⟨checkCreateAdaptorPointParams_iff pubKeys messages rValues, ?_⟩
  intro h
  cases hc : checkCreateAdaptorPointParams pubKeys messages rValues with
  | ok u => exact absurd hc h
  | error e => exact ⟨e, rfl, fun C => createAdaptorPoint_of_check_error C _ _ _ e hc⟩

theorem checkCreateAdaptorPointParams_gate_witness :
    ∃ e, checkCreateAdaptorPointParams [JSValue.buffer (List.replicate 32 3)]
        [JSValue.buffer (List.replicate 31 3)] [JSValue.buffer (List.replicate 32 3)]
          = Except.error e ∧
      ∀ C : CurveOps, createAdaptorPoint C [JSValue.buffer (List.replicate 32 3)]
        [JSValue.buffer (List.replicate 31 3)] [JSValue.buffer (List.replicate 32 3)]
          = Except.error e :=
  (checkCreateAdaptorPointParams_gate [JSValue.buffer (List.replicate 32 3)]
    [JSValue.buffer (List.replicate 31 3)] [JSValue.buffer (List.replicate 32 3)]).2
    (by decide)

/-- C12: in both gates the arrays are checked in argument order: the error of the first
array check that fails is the error of the gate and is never the length error, whatever
the later arrays and the lengths are; the length error is thrown if and only if the three
array checks pass (every array non-empty with valid elements only) and the lengths are not
all equal. -/
theorem validation_order (n : Int) (first messages third : List JSValue) :
    ((∀ e, checkPubKeyArr first = Except.error e →
        checkCreateAdaptorPointParams first messages third = Except.error e ∧
          e ≠ Error.sameLength) ∧
      (checkPubKeyArr first = Except.ok () → ∀ e, checkMessageArr messages = Except.error e →
        checkCreateAdaptorPointParams first messages third = Except.error e ∧
          e ≠ Error.sameLength) ∧
      (checkPubKeyArr first = Except.ok () → checkMessageArr messages = Except.ok () →
        ∀ e, checkNonceArr third = Except.error e →
        checkCreateAdaptorPointParams first messages third = Except.error e ∧
          e ≠ Error.sameLength) ∧
      (checkCreateAdaptorPointParams first messages third = Except.error Error.sameLength ↔
        (first ≠ [] ∧ ∀ v ∈ first, ∃ b, v = JSValue.buffer b ∧ b.length = 32) ∧
        (messages ≠ [] ∧ ∀ v ∈ messages, ∃ b, v = JSValue.buffer b ∧ b.length = 32) ∧
        (third ≠ [] ∧ ∀ v ∈ third, ∃ b, v = JSValue.buffer b ∧ b.length = 32) ∧
        ¬ (first.length = messages.length ∧ messages.length = third.length))) ∧
    ((∀ e, checkPrivateKeyArr n first = Except.error e →
        checkCreateAdaptorSecretParams n first messages third = Except.error e ∧
          e ≠ Error.sameLength) ∧
      (checkPrivateKeyArr n first = Except.ok () →
        ∀ e, checkMessageArr messages = Except.error e →
        checkCreateAdaptorSecretParams n first messages third = Except.error e ∧
          e ≠ Error.sameLength) ∧
      (checkPrivateKeyArr n first = Except.ok () → checkMessageArr messages = Except.ok () →
        ∀ e, checkKValueArr n third = Except.error e →
        checkCreateAdaptorSecretParams n first messages third = Except.error e ∧
          e ≠ Error.sameLength) ∧
      (checkCreateAdaptorSecretParams n first messages third = Except.error Error.sameLength ↔
        (first ≠ [] ∧ ∀ v ∈ first, ∃ k, v = JSValue.bigInteger k ∧ 1 ≤ k ∧ k ≤ n - 1) ∧
        (messages ≠ [] ∧ ∀ v ∈ messages, ∃ b, v = JSValue.buffer b ∧ b.length = 32) ∧
        (third ≠ [] ∧ ∀ v ∈ third, ∃ k, v = JSValue.bigInteger k ∧ 1 ≤ k ∧ k ≤ n - 1) ∧
        ¬ (first.length = messages.length ∧ messages.length = third.length))) := by
  have hP := checkPoint_cases first messages third
  have hS := checkSecret_cases n first messages third
  obtain ⟨hP1, hP2, hP3, hP4⟩ := hP
  obtain ⟨hS1, hS2, hS3, hS4⟩ := hS
  refine ⟨⟨?_, ?_, ?_, ?_⟩, ⟨?_, ?_, ?_, ?_⟩⟩
  · exact fun e he => ⟨hP1 e he, checkPubKeyArr_error_ne first e he⟩
  · exact fun ha e he => ⟨hP2 ha e he, checkMessageArr_error_ne messages e he⟩
  · exact fun ha hb e he => ⟨hP3 ha hb e he, checkNonceArr_error_ne third e he⟩
  · rw [← checkPubKeyArr_ok_iff, ← checkMessageArr_ok_iff, ← checkNonceArr_ok_iff]
    constructor
    · intro h
      cases ha : checkPubKeyArr first with
      | error e =>
        have := hP1 e ha
        rw [h] at this
        cases this
        exact absurd rfl (checkPubKeyArr_error_ne first _ ha)
      | ok u =>
        cases hb : checkMessageArr messages with
        | error e =>
          have := hP2 ha e hb
          rw [h] at this
          cases this
          exact absurd rfl (checkMessageArr_error_ne messages _ hb)
        | ok u2 =>
          cases hc : checkNonceArr third with
          | error e =>
            have := hP3 ha hb e hc
            rw [h] at this
            cases this
            exact absurd rfl (checkNonceArr_error_ne third _ hc)
          | ok u3 =>
            refine ⟨rfl, rfl, rfl, ?_⟩
            intro hl
            have hok := (checkCreateAdaptorPointParams_iff first messages third).2
              ⟨((checkPubKeyArr_ok_iff first).1 ha).1, ((checkMessageArr_ok_iff messages).1 hb).1,
                ((checkNonceArr_ok_iff third).1 hc).1, ((checkPubKeyArr_ok_iff first).1 ha).2,
                ((checkMessageArr_ok_iff messages).1 hb).2,
                ((checkNonceArr_ok_iff third).1 hc).2, hl.1, hl.2⟩
            rw [hok] at h
            cases h
    · rintro ⟨ha, hb, hc, hl⟩
      exact hP4 ha hb hc (by omega)
  · exact fun e he => ⟨hS1 e he, checkPrivateKeyArr_error_ne n first e he⟩
  · exact fun ha e he => ⟨hS2 ha e he, checkMessageArr_error_ne messages e he⟩
  · exact fun ha hb e he => ⟨hS3 ha hb e he, checkKValueArr_error_ne n third e he⟩
  · rw [← checkPrivateKeyArr_ok_iff, ← checkMessageArr_ok_iff, ← checkKValueArr_ok_iff]
    constructor
    · intro h
      cases ha : checkPrivateKeyArr n first with
      | error e =>
        have := hS1 e ha
        rw [h] at this
        cases this
        exact absurd rfl (checkPrivateKeyArr_error_ne n first _ ha)
      | ok u =>
        cases hb : checkMessageArr messages with
        | error e =>
          have := hS2 ha e hb
          rw [h] at this
          cases this
          exact absurd rfl (checkMessageArr_error_ne messages _ hb)
        | ok u2 =>
          cases hc : checkKValueArr n third with
          | error e =>
            have := hS3 ha hb e hc
            rw [h] at this
            cases this
            exact absurd rfl (checkKValueArr_error_ne n third _ hc)
          | ok u3 =>
            refine ⟨rfl, rfl, rfl, ?_⟩
            intro hl
            have hok := (checkCreateAdaptorSecretParams_iff n first messages third).2
              ⟨((checkPrivateKeyArr_ok_iff n first).1 ha).1,
                ((checkMessageArr_ok_iff messages).1 hb).1,
                ((checkKValueArr_ok_iff n third).1 hc).1,
                ((checkPrivateKeyArr_ok_iff n first).1 ha).2,
                ((checkMessageArr_ok_iff messages).1 hb).2,
                ((checkKValueArr_ok_iff n third).1 hc).2, hl.1, hl.2⟩
            rw [hok] at h
            cases h
    · rintro ⟨ha, hb, hc, hl⟩
      exact hS4 ha hb hc (by omega)

/-- An instance of the order of the checks: unequal lengths together with an invalid
message give the message error, not the length error. -/
theorem validation_order_witness :
    checkCreateAdaptorPointParams
        [JSValue.buffer (List.replicate 32 1), JSValue.buffer (List.replicate 32 2)]
        [JSValue.buffer (List.replicate 31 3)] [JSValue.other]
          = Except.error (Error.mustBeBytesLong "message" (some 0) 32) ∧
      Error.mustBeBytesLong "message" (some 0) 32 ≠ Error.sameLength :=
  (validation_order 31
    [JSValue.buffer (List.replicate 32 1), JSValue.buffer (List.replicate 32 2)]
    [JSValue.buffer (List.replicate 31 3)] [JSValue.other]).1.2.1 (by decide)
    (Error.mustBeBytesLong "message" (some 0) 32) (by decide)

/-- C13, as stated, fails: with the second private key equal to 0 (index 1 is the smallest
invalid index) `createAdaptorSecret` throws `privateKey must be an integer in the range
1..n-1`, a message that shows no index. -/
theorem element_error_without_index :
    FirstInvalid (isScalar toyCurve.n) [JSValue.bigInteger 5, JSValue.bigInteger 0] 1 ∧
      createAdaptorSecret toyCurve [JSValue.bigInteger 5, JSValue.bigInteger 0]
        [JSValue.buffer (List.replicate 32 3), JSValue.buffer (List.replicate 32 3)]
        [JSValue.bigInteger 7, JSValue.bigInteger 7]
          = Except.error (Error.mustBeInRange "privateKey") ∧
      (Error.mustBeInRange "privateKey").index ≠ some 1 := by
  unfold FirstInvalid
  decide

/-- C13, amended: when the first array with an invalid element has its smallest invalid
index at `i`, the public functions throw the error of that element.  For the arrays of
buffers (`secrets`, `pubKeys`, `messages`, `rValues`) the error shows the parameter name
and the index `i`; for the arrays of scalars (`privKeys`, `kValues`), when the element at
`i` is a big integer outside of `[1, n-1]`, the error of the range check shows the
parameter name and no index. -/
theorem element_errors (C : CurveOps) :
    (∀ secrets i, FirstInvalid isBuffer32 secrets i →
      combineSecrets C.n secrets
        = Except.error (bufferError "secrets" i (index secrets i))) ∧
    (∀ pubKeys messages rValues i, FirstInvalid isBuffer32 pubKeys i →
      createAdaptorPoint C pubKeys messages rValues
        = Except.error (bufferError "pubKey" i (index pubKeys i))) ∧
    (∀ pubKeys messages rValues i, checkPubKeyArr pubKeys = Except.ok () →
      FirstInvalid isBuffer32 messages i →
      createAdaptorPoint C pubKeys messages rValues
        = Except.error (bufferError "message" i (index messages i))) ∧
    (∀ pubKeys messages rValues i, checkPubKeyArr pubKeys = Except.ok () →
      checkMessageArr messages = Except.ok () → FirstInvalid isBuffer32 rValues i →
      createAdaptorPoint C pubKeys messages rValues
        = Except.error (bufferError "nonce" i (index rValues i))) ∧
    (∀ privKeys messages kValues i k, FirstInvalid (isScalar C.n) privKeys i →
      index privKeys i = JSValue.bigInteger k →
      createAdaptorSecret C privKeys messages kValues
        = Except.error (Error.mustBeInRange "privateKey")) ∧
    (∀ privKeys messages kValues i, checkPrivateKeyArr C.n privKeys = Except.ok () →
      FirstInvalid isBuffer32 messages i →
      createAdaptorSecret C privKeys messages kValues
        = Except.error (bufferError "message" i (index messages i))) ∧
    (∀ privKeys messages kValues i k, checkPrivateKeyArr C.n privKeys = Except.ok () →
      checkMessageArr messages = Except.ok () → FirstInvalid (isScalar C.n) kValues i →
      index kValues i = JSValue.bigInteger k →
      createAdaptorSecret C privKeys messages kValues
        = Except.error (Error.mustBeInRange "kValue")) ∧
    (∀ name i v, (bufferError name i v).index = some i ∧
      (bufferError name i v).param = some name) ∧
    (∀ name, (Error.mustBeInRange name).index = none ∧
      (Error.mustBeInRange name).param = some name) := by
  refine ⟨?_, ?_, ?_, ?_, ?_, ?_, ?_, bufferError_shows, fun _ => ⟨rfl, rfl⟩⟩
  · intro secrets i h
    exact combineSecrets_of_check_error C.n secrets _ (checkSecretArr_first secrets i h)
  · intro a b c i h
    exact createAdaptorPoint_of_check_error C a b c _
      ((checkPoint_cases a b c).1 _ (checkPubKeyArr_first a i h))
  · intro a b c i ha h
    exact createAdaptorPoint_of_check_error C a b c _
      ((checkPoint_cases a b c).2.1 ha _ (checkMessageArr_first b i h))
  · intro a b c i ha hb h
    exact createAdaptorPoint_of_check_error C a b c _
      ((checkPoint_cases a b c).2.2.1 ha hb _ (checkNonceArr_first c i h))
  · intro a b c i k h hk
    have he := checkPrivateKeyArr_first C.n a i h
    rw [hk] at he
    exact createAdaptorSecret_of_check_error C a b c _ ((checkSecret_cases C.n a b c).1 _ he)
  · intro a b c i ha h
    exact createAdaptorSecret_of_check_error C a b c _
      ((checkSecret_cases C.n a b c).2.1 ha _ (checkMessageArr_first b i h))
  · intro a b c i k ha hb h hk
    have he := checkKValueArr_first C.n c i h
    rw [hk] at he
    exact createAdaptorSecret_of_check_error C a b c _
      ((checkSecret_cases C.n a b c).2.2.1 ha hb _ he)

theorem element_errors_witness :
    createAdaptorPoint toyCurve
        [JSValue.buffer (List.replicate 32 1), JSValue.buffer (List.replicate 32 2)]
        [JSValue.buffer (List.replicate 32 3), JSValue.buffer (List.replicate 31 3)]
        [JSValue.other]
      = Except.error (bufferError "message" 1
          (index [JSValue.buffer (List.replicate 32 3), JSValue.buffer (List.replicate 31 3)] 1)) :=
  (element_errors toyCurve).2.2.1
    [JSValue.buffer (List.replicate 32 1), JSValue.buffer (List.replicate 32 2)]
    [JSValue.buffer (List.replicate 32 3), JSValue.buffer (List.replicate 31 3)]
    [JSValue.other] 1 (by decide) (by unfold FirstInvalid; decide)

/-- C14: `combineSecrets` throws if and only if `secrets` is empty or has an element that
is not a buffer of exactly 32 bytes; on a non-empty array of 32-byte buffers it returns a
buffer of exactly 32 bytes. -/
theorem combineSecrets_raises_iff (n : Int) (hn0 : 0 < n) (hn : n ≤ 2 ^ 256)
    (secrets : List JSValue) :
    ((∃ e, combineSecrets n secrets = Except.error e) ↔
      secrets = [] ∨ ∃ v ∈ secrets, ¬ ∃ b, v = JSValue.buffer b ∧ b.length = 32) ∧
    (secrets ≠ [] → (∀ v ∈ secrets, ∃ b, v = JSValue.buffer b ∧ b.length = 32) →
      ∃ r, combineSecrets n secrets = Except.ok r ∧ r.length = 32) := by
  have hiff := checkSecretArr_ok_iff secrets
  constructor
  · constructor
    · rintro ⟨e, he⟩
      by_contra hcon
      have hok : checkSecretArr secrets = Except.ok () := by
        rw [hiff]
        refine ⟨fun h => hcon (Or.inl h), ?_⟩
        intro v hv
        by_contra hb
        exact hcon (Or.inr ⟨v, hv, hb⟩)
      obtain ⟨r, hr, _⟩ := combineSecrets_ok_of_check n hn0 hn secrets hok
      rw [hr] at he
      cases he
    · intro h
      cases hc : checkSecretArr secrets with
      | error e => exact ⟨e, combineSecrets_of_check_error n secrets e hc⟩
      | ok u =>
        obtain ⟨hne, hall⟩ := hiff.1 hc
        rcases h with h | ⟨v, hv, hb⟩
        · exact absurd h hne
        · exact absurd (hall v hv) hb
  · intro hne hall
    exact combineSecrets_ok_of_check n hn0 hn secrets (hiff.2 ⟨hne, hall⟩)

theorem combineSecrets_raises_iff_witness :
    ∃ r, combineSecrets secp256k1_n
        [JSValue.buffer (List.replicate 32 255), JSValue.buffer (List.replicate 32 9)]
          = Except.ok r ∧ r.length = 32 :=
  (combineSecrets_raises_iff secp256k1_n (by decide) (by norm_num [secp256k1_n])
    [JSValue.buffer (List.replicate 32 255), JSValue.buffer (List.replicate 32 9)]).2
    (by decide)
    (by
      intro v hv
      rcases List.mem_cons.1 hv with h | h
      · exact ⟨_, h, by decide⟩
      · rw [List.mem_singleton] at h
        exact ⟨_, h, by decide⟩)

/-! ## Claims on the two accumulations -/

/-- C15: for inputs that pass the validation and whose `pubKeys` and `rValues` all lift
(a lift never being the point at infinity), `createAdaptorPoint` gives the encoded
x-coordinate of the group sum of the `R_i + e_i * P_i` folded from the group identity, the
loop seeded with `R_0` reaching the same point; it is a buffer of 32 bytes unless the sum
is the point at infinity, which has no x-coordinate. -/
theorem createAdaptorPoint_eq_groupSum (C : CurveOps) (hC : CurveLaws C)
    (hlift : ∀ b P, C.lift b = Except.ok P → P ≠ 0) (ps : List PointInput)
    (hchk : checkCreateAdaptorPointParams (pubKeysIn ps) (messagesIn ps) (rValuesIn ps)
      = Except.ok ())
    (hl : ∀ p ∈ ps, (∃ P, C.lift p.pubKey = Except.ok P) ∧ ∃ R, C.lift p.rValue = Except.ok R) :
    createAdaptorPoint C (pubKeysIn ps) (messagesIn ps) (rValuesIn ps)
        = encodeX C (groupSum C ps) ∧
      (groupSum C ps ≠ 0 → ∃ pt, pt.length = 32 ∧
        createAdaptorPoint C (pubKeysIn ps) (messagesIn ps) (rValuesIn ps) = Except.ok pt) := by
  obtain ⟨hne, hv⟩ := inputs_of_check ps hchk
  have h := createAdaptorPoint_groupSum C hC hlift ps hne hv hl
  refine ⟨h, ?_⟩
  intro hnz
  rw [h]
  exact encodeX_ok C hC _ hnz

set_option maxRecDepth 100000 in
theorem createAdaptorPoint_eq_groupSum_witness :
    createAdaptorPoint toyCurve
        (pubKeysIn [⟨intToBuffer 12, List.replicate 32 3, intToBuffer 37⟩,
          ⟨intToBuffer 2, List.replicate 32 9, intToBuffer 7⟩])
        (messagesIn [⟨intToBuffer 12, List.replicate 32 3, intToBuffer 37⟩,
          ⟨intToBuffer 2, List.replicate 32 9, intToBuffer 7⟩])
        (rValuesIn [⟨intToBuffer 12, List.replicate 32 3, intToBuffer 37⟩,
          ⟨intToBuffer 2, List.replicate 32 9, intToBuffer 7⟩])
      = encodeX toyCurve (groupSum toyCurve
          [⟨intToBuffer 12, List.replicate 32 3, intToBuffer 37⟩,
            ⟨intToBuffer 2, List.replicate 32 9, intToBuffer 7⟩]) :=
  (createAdaptorPoint_eq_groupSum toyCurve toyCurve_laws toy_lift_ne_zero
    [⟨intToBuffer 12, List.replicate 32 3, intToBuffer 37⟩,
      ⟨intToBuffer 2, List.replicate 32 9, intToBuffer 7⟩]
    (by decide)
    (by
      show ∀ p ∈ ([⟨intToBuffer 12, List.replicate 32 3, intToBuffer 37⟩,
          ⟨intToBuffer 2, List.replicate 32 9, intToBuffer 7⟩] : List PointInput),
        (∃ P : ZMod 31, toyLift p.pubKey = Except.ok P)
          ∧ ∃ R : ZMod 31, toyLift p.rValue = Except.ok R
      decide)).1

/-- C16: for inputs that pass the validation, `createAdaptorSecret` returns the 32-byte
big-endian encoding of the sum of the `k'_i + e_i * d_i` reduced once modulo `n`; this
equals the accumulation that starts from zero and reduces modulo `n` after every step,
and the decoded result lies in `[0, n-1]`. -/
theorem createAdaptorSecret_eq_specAccumulate (C : CurveOps) (hC : CurveLaws C)
    (ss : List Signer)
    (hchk : checkCreateAdaptorSecretParams C.n (privKeysOf ss) (messagesOf ss) (kValuesOf ss)
      = Except.ok ()) :
    ∃ r, createAdaptorSecret C (privKeysOf ss) (messagesOf ss) (kValuesOf ss) = Except.ok r ∧
      r = intToBuffer ((ss.map (signatureTerm C)).sum % C.n) ∧
      (ss.map (signatureTerm C)).sum % C.n = specAccumulate C ss ∧
      r.length = 32 ∧ fromBuffer r = specAccumulate C ss ∧
      0 ≤ fromBuffer r ∧ fromBuffer r ≤ C.n - 1 := by
  obtain ⟨hne, hv⟩ := signers_of_check C.n ss hchk
  have hn := hC.n_pos
  have hnle := hC.n_le
  have h0 : 0 ≤ (ss.map (signatureTerm C)).sum % C.n := Int.emod_nonneg _ (by omega)
  have h1 : (ss.map (signatureTerm C)).sum % C.n < C.n := Int.emod_lt_of_pos _ (by omega)
  have hrt := fromBuffer_intToBuffer _ h0
  refine ⟨_, createAdaptorSecret_signers C hC ss hne hv, rfl,
    (specAccumulate_eq C ss hne).symm, length_intToBuffer _ h0 (by omega), ?_, ?_, ?_⟩
  · rw [hrt, specAccumulate_eq C ss hne]
  · rw [hrt]; exact h0
  · rw [hrt]; omega

set_option maxRecDepth 100000 in
theorem createAdaptorSecret_eq_specAccumulate_witness :
    ∃ r, createAdaptorSecret toyCurve
        (privKeysOf [⟨5, List.replicate 32 3, 7⟩, ⟨30, List.replicate 32 9, 1⟩])
        (messagesOf [⟨5, List.replicate 32 3, 7⟩, ⟨30, List.replicate 32 9, 1⟩])
        (kValuesOf [⟨5, List.replicate 32 3, 7⟩, ⟨30, List.replicate 32 9, 1⟩])
          = Except.ok r ∧
      r = intToBuffer ((([⟨5, List.replicate 32 3, 7⟩, ⟨30, List.replicate 32 9, 1⟩] :
        List Signer).map (signatureTerm toyCurve)).sum % toyCurve.n) ∧
      (([⟨5, List.replicate 32 3, 7⟩, ⟨30, List.replicate 32 9, 1⟩] :
        List Signer).map (signatureTerm toyCurve)).sum % toyCurve.n
          = specAccumulate toyCurve [⟨5, List.replicate 32 3, 7⟩, ⟨30, List.replicate 32 9, 1⟩] ∧
      r.length = 32 ∧
      fromBuffer r
        = specAccumulate toyCurve [⟨5, List.replicate 32 3, 7⟩, ⟨30, List.replicate 32 9, 1⟩] ∧
      0 ≤ fromBuffer r ∧ fromBuffer r ≤ toyCurve.n - 1 :=
  createAdaptorSecret_eq_specAccumulate toyCurve toyCurve_laws
    [⟨5, List.replicate 32 3, 7⟩, ⟨30, List.replicate 32 9, 1⟩] (by decide)

/-- C17: for inputs that pass the validation and every index `j`, replacing `privKey_j` by
`n - privKey_j`, or `k_j` by `n - k_j`, leaves the bytes returned by `createAdaptorSecret`
unchanged; a scalar `v` in `[1, n-1]` and `n - v` are both in range, give the same
x-coordinate, opposite parities of y and the same normalised scalar. -/
theorem createAdaptorSecret_sign (C : CurveOps) (hC : CurveLaws C) (ss : List Signer)
    (hchk : checkCreateAdaptorSecretParams C.n (privKeysOf ss) (messagesOf ss) (kValuesOf ss)
      = Except.ok ())
    (j : Nat) (hj : j < ss.length) :
    (∃ r, createAdaptorSecret C (privKeysOf ss) (messagesOf ss) (kValuesOf ss) = Except.ok r ∧
      createAdaptorSecret C (privKeysOf (ss.set j (negPrivKey C.n (ss.get ⟨j, hj⟩))))
        (messagesOf (ss.set j (negPrivKey C.n (ss.get ⟨j, hj⟩))))
        (kValuesOf (ss.set j (negPrivKey C.n (ss.get ⟨j, hj⟩)))) = Except.ok r ∧
      createAdaptorSecret C (privKeysOf (ss.set j (negK C.n (ss.get ⟨j, hj⟩))))
        (messagesOf (ss.set j (negK C.n (ss.get ⟨j, hj⟩))))
        (kValuesOf (ss.set j (negK C.n (ss.get ⟨j, hj⟩)))) = Except.ok r) ∧
    ∀ v : Int, 1 ≤ v → v ≤ C.n - 1 →
      (1 ≤ C.n - v ∧ C.n - v ≤ C.n - 1) ∧ xOnly C (C.n - v) = xOnly C v ∧
        hasEvenY C (C.n - v) = !hasEvenY C v ∧ evenScalar C (C.n - v) = evenScalar C v := by
  obtain ⟨hne, hv⟩ := signers_of_check C.n ss hchk
  have hs := hv _ (List.get_mem ss j hj)
  obtain ⟨hp1, hp2⟩ := signatureTerm_negPrivKey C hC _ hs
  obtain ⟨hk1, hk2⟩ := signatureTerm_negK C hC _ hs
  exact ⟨⟨_, createAdaptorSecret_signers C hC ss hne hv,
    createAdaptorSecret_set C hC ss hne hv j hj _ hp1 hp2,
    createAdaptorSecret_set C hC ss hne hv j hj _ hk1 hk2⟩,
    fun v h1 h2 => neg_scalar C hC v h1 h2⟩

set_option maxRecDepth 100000 in
theorem createAdaptorSecret_sign_witness :
    ∃ r, createAdaptorSecret toyCurve
        (privKeysOf [⟨5, List.replicate 32 3, 7⟩, ⟨30, List.replicate 32 9, 1⟩])
        (messagesOf [⟨5, List.replicate 32 3, 7⟩, ⟨30, List.replicate 32 9, 1⟩])
        (kValuesOf [⟨5, List.replicate 32 3, 7⟩, ⟨30, List.replicate 32 9, 1⟩])
          = Except.ok r ∧
      createAdaptorSecret toyCurve
        (privKeysOf [⟨5, List.replicate 32 3, 7⟩, ⟨1, List.replicate 32 9, 1⟩])
        (messagesOf [⟨5, List.replicate 32 3, 7⟩, ⟨1, List.replicate 32 9, 1⟩])
        (kValuesOf [⟨5, List.replicate 32 3, 7⟩, ⟨1, List.replicate 32 9, 1⟩])
          = Except.ok r ∧
      createAdaptorSecret toyCurve
        (privKeysOf [⟨5, List.replicate 32 3, 7⟩, ⟨30, List.replicate 32 9, 30⟩])
        (messagesOf [⟨5, List.replicate 32 3, 7⟩, ⟨30, List.replicate 32 9, 30⟩])
        (kValuesOf [⟨5, List.replicate 32 3, 7⟩, ⟨30, List.replicate 32 9, 30⟩])
          = Except.ok r :=
  (createAdaptorSecret_sign toyCurve toyCurve_laws
    [⟨5, List.replicate 32 3, 7⟩, ⟨30, List.replicate 32 9, 1⟩] (by decide) 1 (by decide)).1

/-- C18: for inputs that pass the validation and any permutation applied to the three
arrays together, `createAdaptorSecret` returns the same bytes. -/
theorem createAdaptorSecret_perm (C : CurveOps) (hC : CurveLaws C) (ss ss2 : List Signer)
    (hchk : checkCreateAdaptorSecretParams C.n (privKeysOf ss) (messagesOf ss) (kValuesOf ss)
      = Except.ok ())
    (hp : ss.Perm ss2) :
    ∃ r, createAdaptorSecret C (privKeysOf ss) (messagesOf ss) (kValuesOf ss) = Except.ok r ∧
      createAdaptorSecret C (privKeysOf ss2) (messagesOf ss2) (kValuesOf ss2) = Except.ok r := by
  obtain ⟨hne, hv⟩ := signers_of_check C.n ss hchk
  have hne2 : ss2 ≠ [] := by
    intro h; subst h; exact hne hp.eq_nil
  have hv2 : ∀ s ∈ ss2, s.Valid C.n := fun s h => hv s (hp.mem_iff.2 h)
  refine ⟨_, createAdaptorSecret_signers C hC ss hne hv, ?_⟩
  rw [createAdaptorSecret_signers C hC ss2 hne2 hv2, (hp.map (signatureTerm C)).sum_eq]

set_option maxRecDepth 100000 in
theorem createAdaptorSecret_perm_witness :
    ∃ r, createAdaptorSecret toyCurve
        (privKeysOf [⟨5, List.replicate 32 3, 7⟩, ⟨30, List.replicate 32 9, 1⟩,
          ⟨12, List.replicate 32 0, 30⟩])
        (messagesOf [⟨5, List.replicate 32 3, 7⟩, ⟨30, List.replicate 32 9, 1⟩,
          ⟨12, List.replicate 32 0, 30⟩])
        (kValuesOf [⟨5, List.replicate 32 3, 7⟩, ⟨30, List.replicate 32 9, 1⟩,
          ⟨12, List.replicate 32 0, 30⟩]) = Except.ok r ∧
      createAdaptorSecret toyCurve
        (privKeysOf [⟨12, List.replicate 32 0, 30⟩, ⟨5, List.replicate 32 3, 7⟩,
          ⟨30, List.replicate 32 9, 1⟩])
        (messagesOf [⟨12, List.replicate 32 0, 30⟩, ⟨5, List.replicate 32 3, 7⟩,
          ⟨30, List.replicate 32 9, 1⟩])
        (kValuesOf [⟨12, List.replicate 32 0, 30⟩, ⟨5, List.replicate 32 3, 7⟩,
          ⟨30, List.replicate 32 9, 1⟩]) = Except.ok r :=
  createAdaptorSecret_perm toyCurve toyCurve_laws
    [⟨5, List.replicate 32 3, 7⟩, ⟨30, List.replicate 32 9, 1⟩, ⟨12, List.replicate 32 0, 30⟩]
    [⟨12, List.replicate 32 0, 30⟩, ⟨5, List.replicate 32 3, 7⟩, ⟨30, List.replicate 32 9, 1⟩]
    (by decide) (by decide)

/-- C19: after a successful gate no loop reads outside of an array, and a loop that
completes leaves a non-null accumulator for the return statement.  Whatever a read outside
of an array does (`read` is any function that agrees with `arr[i]` inside the array: it may
throw outside, or give `undefined`), the loop of `createAdaptorPoint` (bounded by
`pubKeys.length`, reading `pubKeys`, `messages`, `rValues`), the loop of
`createAdaptorSecret` (bounded by `kValues.length`, reading `privKeys`, `messages`,
`kValues`) and `combineSecrets` (reading `secrets[0]` and `secrets[1 ..]`) compute what
they compute with the JavaScript read. -/
theorem loops_in_bounds (C : CurveOps) (read : List JSValue → Nat → Except Error JSValue)
    (hread : ∀ arr i, i < arr.length → read arr i = Except.ok (index arr i))
    (pubKeys messages rValues privKeys messages2 kValues secrets : List JSValue) :
    (checkCreateAdaptorPointParams pubKeys messages rValues = Except.ok () →
      forLoop (createAdaptorPointStepWith read C pubKeys messages rValues) pubKeys.length 0
          none
        = forLoop (createAdaptorPointStep C pubKeys messages rValues) pubKeys.length 0 none ∧
      createAdaptorPointWith read C pubKeys messages rValues
        = createAdaptorPoint C pubKeys messages rValues ∧
      ∀ acc, forLoop (createAdaptorPointStep C pubKeys messages rValues) pubKeys.length 0 none
        = Except.ok acc → acc ≠ none) ∧
    (checkCreateAdaptorSecretParams C.n privKeys messages2 kValues = Except.ok () →
      forLoop (createAdaptorSecretStepWith read C privKeys messages2 kValues) kValues.length
          0 none
        = forLoop (createAdaptorSecretStep C privKeys messages2 kValues) kValues.length 0
          none ∧
      createAdaptorSecretWith read C privKeys messages2 kValues
        = createAdaptorSecret C privKeys messages2 kValues ∧
      ∀ acc, forLoop (createAdaptorSecretStep C privKeys messages2 kValues) kValues.length 0
        none = Except.ok acc → acc ≠ none) ∧
    (checkSecretArr secrets = Except.ok () →
      read secrets 0 = Except.ok (index secrets 0) ∧
      (∀ s0, forLoop (combineSecretsStepWith read C.n secrets) (secrets.length - 1) 1 s0
        = forLoop (combineSecretsStep C.n secrets) (secrets.length - 1) 1 s0) ∧
      combineSecretsWith read C.n secrets = combineSecrets C.n secrets) := by
  refine ⟨?_, ?_, ?_⟩
  · intro h
    obtain ⟨hne, _, _, _, _, _, h1, h2⟩ := (checkCreateAdaptorPointParams_iff _ _ _).1 h
    have hpos : 0 < pubKeys.length := List.length_pos.2 hne
    have hloop : forLoop (createAdaptorPointStepWith read C pubKeys messages rValues)
        pubKeys.length 0 none
        = forLoop (createAdaptorPointStep C pubKeys messages rValues) pubKeys.length 0 none :=
      forLoop_congr _ _ _ 0 none (fun i _ hi t =>
        createAdaptorPointStepWith_eq read hread C pubKeys messages rValues i (by omega)
          (by omega) (by omega) t)
    refine ⟨hloop, ?_, ?_⟩
    · unfold createAdaptorPointWith createAdaptorPoint
      rw [hloop]
    · intro acc hacc
      exact forLoop_some _ (createAdaptorPointStep_some C pubKeys messages rValues) _ 0 none
        acc (by omega) hacc
  · intro h
    obtain ⟨_, _, hne, _, _, _, h1, h2⟩ := (checkCreateAdaptorSecretParams_iff _ _ _ _).1 h
    have hpos : 0 < kValues.length := List.length_pos.2 hne
    have hloop : forLoop (createAdaptorSecretStepWith read C privKeys messages2 kValues)
        kValues.length 0 none
        = forLoop (createAdaptorSecretStep C privKeys messages2 kValues) kValues.length 0
          none :=
      forLoop_congr _ _ _ 0 none (fun i _ hi t =>
        createAdaptorSecretStepWith_eq read hread C privKeys messages2 kValues i (by omega)
          (by omega) (by omega) t)
    refine ⟨hloop, ?_, ?_⟩
    · unfold createAdaptorSecretWith createAdaptorSecret
      rw [hloop]
    · intro acc hacc
      exact forLoop_some _ (createAdaptorSecretStep_some C privKeys messages2 kValues) _ 0
        none acc (by omega) hacc
  · intro h
    obtain ⟨hne, _⟩ := (checkSecretArr_ok_iff secrets).1 h
    have hpos : 0 < secrets.length := List.length_pos.2 hne
    have hloop : ∀ s0, forLoop (combineSecretsStepWith read C.n secrets) (secrets.length - 1)
        1 s0 = forLoop (combineSecretsStep C.n secrets) (secrets.length - 1) 1 s0 :=
      fun s0 => forLoop_congr _ _ _ 1 s0 (fun i _ hi t =>
        combineSecretsStepWith_eq read hread C.n secrets i (by omega) t)
    refine ⟨hread secrets 0 hpos, hloop, ?_⟩
    unfold combineSecretsWith combineSecrets
    rw [hread secrets 0 hpos]
    simp only [bind_ok, hloop]

set_option maxRecDepth 100000 in
theorem loops_in_bounds_witness :
    forLoop (createAdaptorSecretStepWith indexChecked toyCurve
          [JSValue.bigInteger 5, JSValue.bigInteger 30]
          [JSValue.buffer (List.replicate 32 3), JSValue.buffer (List.replicate 32 9)]
          [JSValue.bigInteger 7, JSValue.bigInteger 1])
        [JSValue.bigInteger 7, JSValue.bigInteger 1].length 0 none
      = forLoop (createAdaptorSecretStep toyCurve
          [JSValue.bigInteger 5, JSValue.bigInteger 30]
          [JSValue.buffer (List.replicate 32 3), JSValue.buffer (List.replicate 32 9)]
          [JSValue.bigInteger 7, JSValue.bigInteger 1])
        [JSValue.bigInteger 7, JSValue.bigInteger 1].length 0 none ∧
      createAdaptorSecretWith indexChecked toyCurve
          [JSValue.bigInteger 5, JSValue.bigInteger 30]
          [JSValue.buffer (List.replicate 32 3), JSValue.buffer (List.replicate 32 9)]
          [JSValue.bigInteger 7, JSValue.bigInteger 1]
        = createAdaptorSecret toyCurve
          [JSValue.bigInteger 5, JSValue.bigInteger 30]
          [JSValue.buffer (List.replicate 32 3), JSValue.buffer (List.replicate 32 9)]
          [JSValue.bigInteger 7, JSValue.bigInteger 1] ∧
      ∀ acc, forLoop (createAdaptorSecretStep toyCurve
          [JSValue.bigInteger 5, JSValue.bigInteger 30]
          [JSValue.buffer (List.replicate 32 3), JSValue.buffer (List.replicate 32 9)]
          [JSValue.bigInteger 7, JSValue.bigInteger 1])
        [JSValue.bigInteger 7, JSValue.bigInteger 1].length 0 none = Except.ok acc →
        acc ≠ none :=
  (loops_in_bounds toyCurve indexChecked indexChecked_inside [] [] []
    [JSValue.bigInteger 5, JSValue.bigInteger 30]
    [JSValue.buffer (List.replicate 32 3), JSValue.buffer (List.replicate 32 9)]
    [JSValue.bigInteger 7, JSValue.bigInteger 1] []).2.1 (by decide)

/-- Without the gate the throwing read does see a read outside of an array: with two
private keys, two k values and a single message the second iteration of the loop of
`createAdaptorSecret` reads `messages[1]`. -/
theorem read_outside_detected :
    forLoop (createAdaptorSecretStepWith indexChecked toyCurve
        [JSValue.bigInteger 5, JSValue.bigInteger 30] [JSValue.buffer (List.replicate 32 3)]
        [JSValue.bigInteger 7, JSValue.bigInteger 1]) 2 0 none
      = Except.error (Error.library "read outside of the array") ∧
    forLoop (createAdaptorSecretStep toyCurve
        [JSValue.bigInteger 5, JSValue.bigInteger 30] [JSValue.buffer (List.replicate 32 3)]
        [JSValue.bigInteger 7, JSValue.bigInteger 1]) 2 0 none
      = Except.error (Error.library "TypeError") := by
  set_option maxRecDepth 100000 in decide

end AdaptorPoints
